import Mathlib

/-!
Verification of the FlyARocket_GNC flight software against its natural-language
specification.  The C sources are shallowly embedded: `double` arithmetic is
modelled exactly over a linear ordered field (instantiated at `ℚ` for concrete
evaluation and at `ℝ` for the program-level statements, where the `math.h`
constant `M_PI` becomes `Real.pi` and `cos`/`sin` become `Real.cos`/`Real.sin`),
machine loops become structural or fuelled recursion, and C functions that
mutate globals become functions from prior values to new values.
-/

namespace FlyARocket

/-- A C-style inclusive `for` loop `for (i = lo; i <= hi; i++) s = body i s;`
realised as structural recursion on the trip count. -/
def forRangeAux {σ : Type} (body : ℕ → σ → σ) : ℕ → ℕ → σ → σ
  | 0, _, s => s
  | n + 1, i, s => forRangeAux body n (i + 1) (body i s)

/-- Run `body` for indices `lo, lo+1, …, hi` (no iteration when `lo > hi`). -/
def forRange {σ : Type} (lo hi : ℕ) (body : ℕ → σ → σ) (s : σ) : σ :=
  forRangeAux body (hi + 1 - lo) lo s

section MinOfSet

variable {α : Type} [LinearOrderedField α]

/-- The ascending candidate scan of `min_of_set` (src/imu_funcs.c:192-198,
branch `now < before`).  `d0` stands for `now - before`; the `k`-th candidate
is `temp = now + k*2π - before = d0 + T*k` where `T` is the value of `2*M_PI`.
The C do-while keeps stepping while the next candidate is strictly closer to
zero in square, and returns the last candidate before that stops improving. -/
def mosLoopUp [FloorRing α] (T : α) (hT : 0 < T) (d0 : α) (k : ℕ) : α :=
  if (d0 + T * ((k : α) + 1)) ^ 2 < (d0 + T * (k : α)) ^ 2 then
    mosLoopUp T hT d0 (k + 1)
  else
    d0 + T * (k : α)
  termination_by (Int.ceil (-d0 / T)).toNat - k
  decreasing_by
    rename_i h
    have hk : (k : α) < Int.ceil (-d0 / T) := by
      have h2 : T * (2 * d0 + T * (2 * (k : α) + 1)) < 0 := by nlinarith [sq_nonneg (d0 + T * (k : α)), sq_nonneg (d0 + T * ((k : α) + 1))]
      have h3 : 2 * d0 + T * (2 * (k : α) + 1) < 0 := by
        by_contra hc
        push_neg at hc
        nlinarith
      have h4 : (k : α) < -d0 / T := by
        rw [lt_div_iff hT]
        nlinarith
      calc (k : α) < -d0 / T := h4
        _ ≤ Int.ceil (-d0 / T) := Int.le_ceil _
    have hk2 : (k : ℤ) < Int.ceil (-d0 / T) := by exact_mod_cast hk
    have hk3 : k < (Int.ceil (-d0 / T)).toNat := by omega
    omega

/-- The descending candidate scan of `min_of_set` (src/imu_funcs.c:205-211,
branch `now ≥ before`).  The `k`-th candidate is `d0 - T*k`. -/
def mosLoopDown [FloorRing α] (T : α) (hT : 0 < T) (d0 : α) (k : ℕ) : α :=
  if (d0 - T * ((k : α) + 1)) ^ 2 < (d0 - T * (k : α)) ^ 2 then
    mosLoopDown T hT d0 (k + 1)
  else
    d0 - T * (k : α)
  termination_by (Int.ceil (d0 / T)).toNat - k
  decreasing_by
    rename_i h
    have hk : (k : α) < Int.ceil (d0 / T) := by
      have h2 : T * (-2 * d0 + T * (2 * (k : α) + 1)) < 0 := by nlinarith [sq_nonneg (d0 - T * (k : α)), sq_nonneg (d0 - T * ((k : α) + 1))]
      have h3 : -2 * d0 + T * (2 * (k : α) + 1) < 0 := by
        by_contra hc
        push_neg at hc
        nlinarith
      have h4 : (k : α) < d0 / T := by
        rw [lt_div_iff hT]
        nlinarith
      calc (k : α) < d0 / T := h4
        _ ≤ Int.ceil (d0 / T) := Int.le_ceil _
    have hk2 : (k : ℤ) < Int.ceil (d0 / T) := by exact_mod_cast hk
    have hk3 : k < (Int.ceil (d0 / T)).toNat := by omega
    omega

/-- `min_of_set` from src/imu_funcs.c:188-216.  `T` is the value of the C
expression `2*M_PI` (a parameter so that the definition stays computable;
the flight program uses `T = 2 * Real.pi`).  Given the previously unwrapped
angle `before` and a fresh angle `now`, it returns `now` shifted by the
multiple of `T` that brings it closest to `before`. -/
def min_of_set [FloorRing α] (T : α) (hT : 0 < T) (now before : α) : α :=
  if now < before then
    if (now + T - before) ^ 2 < (now - before) ^ 2 then
      mosLoopUp T hT (now - before) 1 + before
    else
      now
  else
    if (now - T - before) ^ 2 < (now - before) ^ 2 then
      mosLoopDown T hT (now - before) 1 + before
    else
      now


/-- Fuelled mirror of the ascending do-while loop of `min_of_set`
(src/imu_funcs.c:193-197): `none` models a loop that has not yet stopped
within `n` iterations. -/
def mosLoopUpFuel (T d0 : α) : ℕ → ℕ → Option α
  | _, 0 => none
  | k, n + 1 =>
    if (d0 + T * ((k : α) + 1)) ^ 2 < (d0 + T * (k : α)) ^ 2 then
      mosLoopUpFuel T d0 (k + 1) n
    else
      some (d0 + T * (k : α))

/-- Fuelled mirror of the descending do-while loop of `min_of_set`
(src/imu_funcs.c:206-210). -/
def mosLoopDownFuel (T d0 : α) : ℕ → ℕ → Option α
  | _, 0 => none
  | k, n + 1 =>
    if (d0 - T * ((k : α) + 1)) ^ 2 < (d0 - T * (k : α)) ^ 2 then
      mosLoopDownFuel T d0 (k + 1) n
    else
      some (d0 - T * (k : α))

/-- Fuelled mirror of the whole of `min_of_set`: returns `none` exactly when
the inner do-while loop fails to stop within `n` iterations. -/
def min_of_set_fuel (T now before : α) (n : ℕ) : Option α :=
  if now < before then
    if (now + T - before) ^ 2 < (now - before) ^ 2 then
      (mosLoopUpFuel T (now - before) 1 n).map (· + before)
    else
      some now
  else
    if (now - T - before) ^ 2 < (now - before) ^ 2 then
      (mosLoopDownFuel T (now - before) 1 n).map (· + before)
    else
      some now

set_option maxHeartbeats 2000000 in
theorem mosLoopUp_spec [FloorRing α] (T : α) (hT : 0 < T) (d0 : α) :
    ∀ N k : ℕ, (Int.ceil (-d0 / T)).toNat - k ≤ N → (k : α) ≤ -d0 / T + 1 / 2 →
      ∃ j : ℕ, k ≤ j ∧ mosLoopUp T hT d0 k = d0 + T * (j : α) ∧
        -d0 / T - 1 / 2 ≤ (j : α) ∧ (j : α) ≤ -d0 / T + 1 / 2 := by
  intro N
  induction N with
  | zero =>
    intro k hm hk
    rw [mosLoopUp]
    split
    · rename_i hcond
      exfalso
      have hklt : (k : α) < Int.ceil (-d0 / T) := by
        have h3 : 2 * d0 + T * (2 * (k : α) + 1) < 0 := by
          by_contra hc
          push_neg at hc
          nlinarith
        have h4 : (k : α) < -d0 / T := by
          rw [lt_div_iff₀ hT]
          nlinarith
        exact lt_of_lt_of_le h4 (Int.le_ceil _)
      have hk2 : (k : ℤ) < Int.ceil (-d0 / T) := by exact_mod_cast hklt
      omega
    · rename_i hcond
      refine ⟨k, le_rfl, rfl, ?_, hk⟩
      push_neg at hcond
      have h3 : 0 ≤ 2 * d0 + T * (2 * (k : α) + 1) := by
        by_contra hc
        push_neg at hc
        nlinarith
      have h4 : -d0 ≤ ((k : α) + 1 / 2) * T := by nlinarith
      have h5 : -d0 / T ≤ (k : α) + 1 / 2 := (div_le_iff₀ hT).mpr h4
      linarith
  | succ N ih =>
    intro k hm hk
    rw [mosLoopUp]
    split
    · rename_i hcond
      have h3 : 2 * d0 + T * (2 * (k : α) + 1) < 0 := by
        by_contra hc
        push_neg at hc
        nlinarith
      have hklt : (k : α) < -d0 / T - 1 / 2 := by
        rw [lt_sub_iff_add_lt, lt_div_iff₀ hT]
        nlinarith
      have hnext : ((k + 1 : ℕ) : α) ≤ -d0 / T + 1 / 2 := by
        push_cast
        linarith
      have hmeas : (Int.ceil (-d0 / T)).toNat - (k + 1) ≤ N := by
        have hklt2 : (k : α) < Int.ceil (-d0 / T) :=
          lt_of_lt_of_le (by linarith [Int.le_ceil (-d0 / T)] :
            (k : α) < -d0 / T) (Int.le_ceil _)
        have hk2 : (k : ℤ) < Int.ceil (-d0 / T) := by exact_mod_cast hklt2
        omega
      obtain ⟨j, hj1, hj2, hj3, hj4⟩ := ih (k + 1) hmeas hnext
      exact ⟨j, le_trans (Nat.le_succ k) hj1, hj2, hj3, hj4⟩
    · rename_i hcond
      refine ⟨k, le_rfl, rfl, ?_, hk⟩
      push_neg at hcond
      have h3 : 0 ≤ 2 * d0 + T * (2 * (k : α) + 1) := by
        by_contra hc
        push_neg at hc
        nlinarith
      have h4 : -d0 ≤ ((k : α) + 1 / 2) * T := by nlinarith
      have h5 : -d0 / T ≤ (k : α) + 1 / 2 := (div_le_iff₀ hT).mpr h4
      linarith

set_option maxHeartbeats 2000000 in
theorem mosLoopDown_spec [FloorRing α] (T : α) (hT : 0 < T) (d0 : α) :
    ∀ N k : ℕ, (Int.ceil (d0 / T)).toNat - k ≤ N → (k : α) ≤ d0 / T + 1 / 2 →
      ∃ j : ℕ, k ≤ j ∧ mosLoopDown T hT d0 k = d0 - T * (j : α) ∧
        d0 / T - 1 / 2 ≤ (j : α) ∧ (j : α) ≤ d0 / T + 1 / 2 := by
  intro N
  induction N with
  | zero =>
    intro k hm hk
    rw [mosLoopDown]
    split
    · rename_i hcond
      exfalso
      have hklt : (k : α) < Int.ceil (d0 / T) := by
        have h3 : -2 * d0 + T * (2 * (k : α) + 1) < 0 := by
          by_contra hc
          push_neg at hc
          nlinarith
        have h4 : (k : α) < d0 / T := by
          rw [lt_div_iff₀ hT]
          nlinarith
        exact lt_of_lt_of_le h4 (Int.le_ceil _)
      have hk2 : (k : ℤ) < Int.ceil (d0 / T) := by exact_mod_cast hklt
      omega
    · rename_i hcond
      refine ⟨k, le_rfl, rfl, ?_, hk⟩
      push_neg at hcond
      have h3 : 0 ≤ -2 * d0 + T * (2 * (k : α) + 1) := by
        by_contra hc
        push_neg at hc
        nlinarith
      have h4 : d0 ≤ ((k : α) + 1 / 2) * T := by nlinarith
      have h5 : d0 / T ≤ (k : α) + 1 / 2 := (div_le_iff₀ hT).mpr h4
      linarith
  | succ N ih =>
    intro k hm hk
    rw [mosLoopDown]
    split
    · rename_i hcond
      have h3 : -2 * d0 + T * (2 * (k : α) + 1) < 0 := by
        by_contra hc
        push_neg at hc
        nlinarith
      have hklt : (k : α) < d0 / T - 1 / 2 := by
        rw [lt_sub_iff_add_lt, lt_div_iff₀ hT]
        nlinarith
      have hnext : ((k + 1 : ℕ) : α) ≤ d0 / T + 1 / 2 := by
        push_cast
        linarith
      have hmeas : (Int.ceil (d0 / T)).toNat - (k + 1) ≤ N := by
        have hklt2 : (k : α) < Int.ceil (d0 / T) :=
          lt_of_lt_of_le (by linarith [Int.le_ceil (d0 / T)] :
            (k : α) < d0 / T) (Int.le_ceil _)
        have hk2 : (k : ℤ) < Int.ceil (d0 / T) := by exact_mod_cast hklt2
        omega
      obtain ⟨j, hj1, hj2, hj3, hj4⟩ := ih (k + 1) hmeas hnext
      exact ⟨j, le_trans (Nat.le_succ k) hj1, hj2, hj3, hj4⟩
    · rename_i hcond
      refine ⟨k, le_rfl, rfl, ?_, hk⟩
      push_neg at hcond
      have h3 : 0 ≤ -2 * d0 + T * (2 * (k : α) + 1) := by
        by_contra hc
        push_neg at hc
        nlinarith
      have h4 : d0 ≤ ((k : α) + 1 / 2) * T := by nlinarith
      have h5 : d0 / T ≤ (k : α) + 1 / 2 := (div_le_iff₀ hT).mpr h4
      linarith

/-- Any representative within `T/2` of the target minimises the distance over
all integer shifts. -/
theorem abs_shift_min (T : α) (hT : 0 < T) (v : α) (k : ℤ)
    (hk : |v + T * (k : α)| ≤ T / 2) :
    ∀ j : ℤ, |v + T * (k : α)| ≤ |v + T * (j : α)| := by
  intro j
  rcases eq_or_ne j k with rfl | hne
  · exact le_rfl
  · have hjk : (1 : ℤ) ≤ |j - k| := Int.one_le_abs (sub_ne_zero.mpr hne)
    have hjk2 : (1 : α) ≤ |(j : α) - (k : α)| := by
      have h2 : ((1 : ℤ) : α) ≤ ((|j - k| : ℤ) : α) := by exact_mod_cast hjk
      rw [Int.cast_abs] at h2
      push_cast at h2 ⊢
      exact h2
    have hge : T ≤ |T * ((j : α) - (k : α))| := by
      rw [abs_mul, abs_of_pos hT]
      nlinarith
    have htri : |T * ((j : α) - (k : α))| - |v + T * (k : α)| ≤ |v + T * (j : α)| := by
      have h4 := abs_sub_abs_le_abs_sub (T * ((j : α) - (k : α))) (-(v + T * (k : α)))
      have h5 : T * ((j : α) - (k : α)) - -(v + T * (k : α)) = v + T * (j : α) := by ring
      rw [h5, abs_neg] at h4
      exact h4
    linarith

set_option maxHeartbeats 2000000 in
/-- The generic unwrap property: `min_of_set` returns `now + T*k` for some
integer `k`, the result lies within `T/2` of `before`, and that choice of `k`
minimises the distance to `before` over all integers. -/
theorem min_of_set_spec [FloorRing α] (T : α) (hT : 0 < T) (now before : α) :
    ∃ k : ℤ, min_of_set T hT now before = now + T * (k : α) ∧
      |min_of_set T hT now before - before| ≤ T / 2 ∧
      ∀ j : ℤ, |now + T * (k : α) - before| ≤ |now + T * (j : α) - before| := by
  have key : ∃ k : ℤ, min_of_set T hT now before = now + T * (k : α) ∧
      |min_of_set T hT now before - before| ≤ T / 2 := by
    unfold min_of_set
    split
    · rename_i hlt
      split
      · rename_i hcond
        have hTd0 : 2 * (now - before) + T < 0 := by
          by_contra hc
          push_neg at hc
          nlinarith
        have hentry : ((1 : ℕ) : α) ≤ -(now - before) / T + 1 / 2 := by
          have h6 : (1 / 2 : α) * T ≤ -(now - before) := by linarith
          have h7 : (1 / 2 : α) ≤ -(now - before) / T := (le_div_iff₀ hT).mpr h6
          push_cast
          linarith
        obtain ⟨j, hj1, hj2, hj3, hj4⟩ :=
          mosLoopUp_spec T hT (now - before) (Int.ceil (-(now - before) / T)).toNat 1
            (by omega) hentry
        have hA : -(now - before) ≤ ((j : α) + 1 / 2) * T := by
          rw [← div_le_iff₀ hT]
          linarith
        have hB : ((j : α) - 1 / 2) * T ≤ -(now - before) := by
          rw [← le_div_iff₀ hT]
          linarith
        refine ⟨(j : ℤ), ?_, ?_⟩
        · rw [hj2]
          push_cast
          ring
        · rw [hj2]
          have heq2 : now - before + T * (j : α) + before - before
              = (now - before) + T * (j : α) := by ring
          rw [heq2, abs_le]
          constructor
          · nlinarith
          · nlinarith
      · rename_i hcond
        push_neg at hcond
        have h8 : 0 ≤ 2 * (now - before) + T := by
          by_contra hc
          push_neg at hc
          nlinarith
        refine ⟨0, by push_cast; ring, ?_⟩
        rw [abs_le]
        constructor
        · linarith
        · nlinarith
    · rename_i hge
      push_neg at hge
      split
      · rename_i hcond
        have hTd0 : T < 2 * (now - before) := by
          by_contra hc
          push_neg at hc
          nlinarith
        have hentry : ((1 : ℕ) : α) ≤ (now - before) / T + 1 / 2 := by
          have h6 : (1 / 2 : α) * T ≤ (now - before) := by linarith
          have h7 : (1 / 2 : α) ≤ (now - before) / T := (le_div_iff₀ hT).mpr h6
          push_cast
          linarith
        obtain ⟨j, hj1, hj2, hj3, hj4⟩ :=
          mosLoopDown_spec T hT (now - before) (Int.ceil ((now - before) / T)).toNat 1
            (by omega) hentry
        have hA : (now - before) ≤ ((j : α) + 1 / 2) * T := by
          rw [← div_le_iff₀ hT]
          linarith
        have hB : ((j : α) - 1 / 2) * T ≤ (now - before) := by
          rw [← le_div_iff₀ hT]
          linarith
        refine ⟨-(j : ℤ), ?_, ?_⟩
        · rw [hj2]
          push_cast
          ring
        · rw [hj2]
          have heq2 : now - before - T * (j : α) + before - before
              = (now - before) - T * (j : α) := by ring
          rw [heq2, abs_le]
          constructor
          · nlinarith
          · nlinarith
      · rename_i hcond
        push_neg at hcond
        have h8 : 0 ≤ T - 2 * (now - before) := by
          by_contra hc
          push_neg at hc
          nlinarith
        refine ⟨0, by push_cast; ring, ?_⟩
        rw [abs_le]
        constructor
        · linarith
        · linarith
  obtain ⟨k, heq, hbound⟩ := key
  refine ⟨k, heq, hbound, ?_⟩
  intro j
  rw [heq] at hbound
  have hv : ∀ i : ℤ, now + T * (i : α) - before = (now - before) + T * (i : α) := by
    intro i
    ring
  rw [hv k, hv j]
  rw [hv k] at hbound
  exact abs_shift_min T hT (now - before) k hbound j

set_option maxHeartbeats 2000000 in
/-- The fuelled ascending loop stops within `N+1` iterations when started with
slack `N`, and agrees with the total function. -/
theorem mosLoopUpFuel_converges [FloorRing α] (T : α) (hT : 0 < T) (d0 : α) :
    ∀ N k : ℕ, (Int.ceil (-d0 / T)).toNat - k ≤ N →
      mosLoopUpFuel T d0 k (N + 1) = some (mosLoopUp T hT d0 k) := by
  intro N
  induction N with
  | zero =>
    intro k hm
    rw [mosLoopUpFuel, mosLoopUp]
    split
    · rename_i hcond
      exfalso
      have h3 : 2 * d0 + T * (2 * (k : α) + 1) < 0 := by
        by_contra hc
        push_neg at hc
        nlinarith
      have h4 : (k : α) < -d0 / T := by
        rw [lt_div_iff₀ hT]
        nlinarith
      have hklt : (k : α) < Int.ceil (-d0 / T) := lt_of_lt_of_le h4 (Int.le_ceil _)
      have hk2 : (k : ℤ) < Int.ceil (-d0 / T) := by exact_mod_cast hklt
      omega
    · rfl
  | succ N ih =>
    intro k hm
    rw [mosLoopUpFuel, mosLoopUp]
    split
    · rename_i hcond
      have h3 : 2 * d0 + T * (2 * (k : α) + 1) < 0 := by
        by_contra hc
        push_neg at hc
        nlinarith
      have h4 : (k : α) < -d0 / T := by
        rw [lt_div_iff₀ hT]
        nlinarith
      have hklt : (k : α) < Int.ceil (-d0 / T) := lt_of_lt_of_le h4 (Int.le_ceil _)
      have hk2 : (k : ℤ) < Int.ceil (-d0 / T) := by exact_mod_cast hklt
      have hmeas : (Int.ceil (-d0 / T)).toNat - (k + 1) ≤ N := by omega
      exact ih (k + 1) hmeas
    · rfl

set_option maxHeartbeats 2000000 in
/-- The fuelled descending loop stops within `N+1` iterations when started
with slack `N`, and agrees with the total function. -/
theorem mosLoopDownFuel_converges [FloorRing α] (T : α) (hT : 0 < T) (d0 : α) :
    ∀ N k : ℕ, (Int.ceil (d0 / T)).toNat - k ≤ N →
      mosLoopDownFuel T d0 k (N + 1) = some (mosLoopDown T hT d0 k) := by
  intro N
  induction N with
  | zero =>
    intro k hm
    rw [mosLoopDownFuel, mosLoopDown]
    split
    · rename_i hcond
      exfalso
      have h3 : -2 * d0 + T * (2 * (k : α) + 1) < 0 := by
        by_contra hc
        push_neg at hc
        nlinarith
      have h4 : (k : α) < d0 / T := by
        rw [lt_div_iff₀ hT]
        nlinarith
      have hklt : (k : α) < Int.ceil (d0 / T) := lt_of_lt_of_le h4 (Int.le_ceil _)
      have hk2 : (k : ℤ) < Int.ceil (d0 / T) := by exact_mod_cast hklt
      omega
    · rfl
  | succ N ih =>
    intro k hm
    rw [mosLoopDownFuel, mosLoopDown]
    split
    · rename_i hcond
      have h3 : -2 * d0 + T * (2 * (k : α) + 1) < 0 := by
        by_contra hc
        push_neg at hc
        nlinarith
      have h4 : (k : α) < d0 / T := by
        rw [lt_div_iff₀ hT]
        nlinarith
      have hklt : (k : α) < Int.ceil (d0 / T) := lt_of_lt_of_le h4 (Int.le_ceil _)
      have hk2 : (k : ℤ) < Int.ceil (d0 / T) := by exact_mod_cast hklt
      have hmeas : (Int.ceil (d0 / T)).toNat - (k + 1) ≤ N := by omega
      exact ih (k + 1) hmeas
    · rfl

/-- `min_of_set` agrees with its fuelled mirror for sufficiently large fuel:
the do-while loops always stop after finitely many iterations. -/
theorem min_of_set_total [FloorRing α] (T : α) (hT : 0 < T) (now before : α) :
    ∃ n : ℕ, min_of_set_fuel T now before n = some (min_of_set T hT now before) := by
  unfold min_of_set_fuel min_of_set
  split
  · split
    · refine ⟨(Int.ceil (-(now - before) / T)).toNat + 1, ?_⟩
      rw [mosLoopUpFuel_converges T hT (now - before) (Int.ceil (-(now - before) / T)).toNat 1
        (by omega)]
      rfl
    · exact ⟨0, rfl⟩
  · split
    · refine ⟨(Int.ceil ((now - before) / T)).toNat + 1, ?_⟩
      rw [mosLoopDownFuel_converges T hT (now - before) (Int.ceil ((now - before) / T)).toNat 1
        (by omega)]
      rfl
    · exact ⟨0, rfl⟩

end MinOfSet

theorem two_pi_pos : (0 : ℝ) < 2 * Real.pi := by positivity

/-- Claim C7: for every pair of finite angles `(now, before)`,
`min_of_set(now, before)` returns `now + 2πk` for an integer `k` that
minimises `|now + 2πk - before|`; consequently the unwrapped angle differs
from `before` by at most `π` in magnitude. -/
theorem C7_min_of_set_unwraps (now before : ℝ) :
    ∃ k : ℤ,
      min_of_set (2 * Real.pi) two_pi_pos now before = now + 2 * Real.pi * (k : ℝ) ∧
      (∀ j : ℤ, |now + 2 * Real.pi * (k : ℝ) - before|
        ≤ |now + 2 * Real.pi * (j : ℝ) - before|) ∧
      |min_of_set (2 * Real.pi) two_pi_pos now before - before| ≤ Real.pi := by
  obtain ⟨k, h1, h2, h3⟩ := min_of_set_spec (2 * Real.pi) two_pi_pos now before
  refine ⟨k, h1, h3, ?_⟩
  have hhalf : (2 * Real.pi) / 2 = Real.pi := by ring
  rw [hhalf] at h2
  exact h2

/-- Claim C10: `min_of_set` is total — both inner do-while loops stop after
finitely many iterations on every input, witnessed by the fuelled mirror of
the function returning a value that agrees with the total definition. -/
theorem C10_min_of_set_terminates (now before : ℝ) :
    ∃ n : ℕ, min_of_set_fuel (2 * Real.pi) now before n
      = some (min_of_set (2 * Real.pi) two_pi_pos now before) :=
  min_of_set_total (2 * Real.pi) two_pi_pos now before

section ValveCurve

variable {α : Type} [LinearOrderedField α]

/-- PWM column of the calibrated valve characteristic,
src/master_funcs.c:28.  The C array has `VALVE_CHARAC_RESOLUTION = 13`
entries (master_header.h:21) but only 8 initialisers, so entries 8..12 are
statically zero-filled. -/
def PWM_valve_charac : ℕ → ℕ
  | 0 => 310
  | 1 => 420
  | 2 => 520
  | 3 => 620
  | 4 => 720
  | 5 => 820
  | 6 => 920
  | 7 => 1020
  | _ => 0

/-- Thrust column of the calibrated valve characteristic,
src/master_funcs.c:29 (zero-filled beyond index 7 as above). -/
def R_valve_charac : ℕ → α
  | 0 => 0
  | 1 => 17 / 100
  | 2 => 25 / 100
  | 3 => 29 / 100
  | 4 => 32 / 100
  | 5 => 34 / 100
  | 6 => 35 / 100
  | 7 => 36 / 100
  | _ => 0

/-- One iteration chain of the scan loop of `linear_search`
(src/master_funcs.c:203-209): `zz` is the current index and the second
argument counts the remaining iterations (the loop runs `zz = 1..12`).
When a segment matches, the C code adds the `(unsigned int)` cast of the
interpolation increment — truncation of a non-negative double, i.e. the
floor — to the left PWM sample; when no segment matches, the loop runs off
the end and `*pwm` keeps its previous value. -/
def linear_searchAux [FloorRing α] (thrust : α) (pwm : ℕ) : ℕ → ℕ → ℕ
  | _, 0 => pwm
  | zz, n + 1 =>
    if R_valve_charac (zz - 1) ≤ thrust ∧ thrust ≤ R_valve_charac zz then
      PWM_valve_charac (zz - 1) +
        (Int.floor (((PWM_valve_charac zz : α) - (PWM_valve_charac (zz - 1) : α))
          / (R_valve_charac zz - R_valve_charac (zz - 1))
          * (thrust - R_valve_charac (zz - 1)))).toNat
    else
      linear_searchAux thrust pwm (zz + 1) n

/-- `linear_search` from src/master_funcs.c:201-210. -/
def linear_search [FloorRing α] (thrust : α) (pwm : ℕ) : ℕ :=
  linear_searchAux thrust pwm 1 12

/-- The per-valve block of `search_PWM` (src/master_funcs.c:169-173 and its
three copies): zero thrust maps directly to PWM 0, anything else goes through
`linear_search`. -/
def searchPWM1 [FloorRing α] (thrust : α) (pwm : ℕ) : ℕ :=
  if thrust ≠ 0 then linear_search thrust pwm else 0

/-- `search_PWM` from src/master_funcs.c:168-192: the same block applied to
each of the four valves. -/
def search_PWM [FloorRing α] (R1t R2t R3t R4t : α) (p1 p2 p3 p4 : ℕ) :
    ℕ × ℕ × ℕ × ℕ :=
  (searchPWM1 R1t p1, searchPWM1 R2t p2, searchPWM1 R3t p3, searchPWM1 R4t p4)

/-- Above the top table sample the scan of `linear_search` finds no segment
and leaves the PWM at its prior value. -/
theorem linear_search_above_top [FloorRing α] (thrust : α) (pwm : ℕ)
    (h : 36 / 100 < thrust) : linear_search thrust pwm = pwm := by
  unfold linear_search
  rw [linear_searchAux]
  rw [if_neg (by simp only [R_valve_charac]; rintro ⟨h1, h2⟩; linarith)]
  rw [linear_searchAux]
  rw [if_neg (by simp only [R_valve_charac]; rintro ⟨h1, h2⟩; linarith)]
  rw [linear_searchAux]
  rw [if_neg (by simp only [R_valve_charac]; rintro ⟨h1, h2⟩; linarith)]
  rw [linear_searchAux]
  rw [if_neg (by simp only [R_valve_charac]; rintro ⟨h1, h2⟩; linarith)]
  rw [linear_searchAux]
  rw [if_neg (by simp only [R_valve_charac]; rintro ⟨h1, h2⟩; linarith)]
  rw [linear_searchAux]
  rw [if_neg (by simp only [R_valve_charac]; rintro ⟨h1, h2⟩; linarith)]
  rw [linear_searchAux]
  rw [if_neg (by simp only [R_valve_charac]; rintro ⟨h1, h2⟩; linarith)]
  rw [linear_searchAux]
  rw [if_neg (by simp only [R_valve_charac]; rintro ⟨h1, h2⟩; linarith)]
  rw [linear_searchAux]
  rw [if_neg (by simp only [R_valve_charac]; rintro ⟨h1, h2⟩; linarith)]
  rw [linear_searchAux]
  rw [if_neg (by simp only [R_valve_charac]; rintro ⟨h1, h2⟩; linarith)]
  rw [linear_searchAux]
  rw [if_neg (by simp only [R_valve_charac]; rintro ⟨h1, h2⟩; linarith)]
  rw [linear_searchAux]
  rw [if_neg (by simp only [R_valve_charac]; rintro ⟨h1, h2⟩; linarith)]
  rw [linear_searchAux]

/-- The scan of `linear_search` leaves the PWM unchanged when no index in the
scanned window matches. -/
theorem linear_searchAux_no_match [FloorRing α] (R : α) (pwm : ℕ) :
    ∀ n zz : ℕ,
      (∀ i : ℕ, zz ≤ i → i < zz + n →
        ¬(R_valve_charac (i - 1) ≤ R ∧ R ≤ R_valve_charac i)) →
      linear_searchAux R pwm zz n = pwm := by
  intro n
  induction n with
  | zero => intro zz _; rfl
  | succ n ih =>
    intro zz h
    rw [linear_searchAux, if_neg (h zz le_rfl (by omega))]
    exact ih (zz + 1) (fun i hi1 hi2 => h i (by omega) (by omega))

/-- The scan of `linear_search` interpolates on the first matching segment. -/
theorem linear_searchAux_first_match [FloorRing α] (R : α) (pwm : ℕ) :
    ∀ n zz k : ℕ, zz ≤ k → k < zz + n →
      (R_valve_charac (k - 1) ≤ R ∧ R ≤ R_valve_charac k) →
      (∀ i : ℕ, zz ≤ i → i < k →
        ¬(R_valve_charac (i - 1) ≤ R ∧ R ≤ R_valve_charac i)) →
      linear_searchAux R pwm zz n = PWM_valve_charac (k - 1) +
        (Int.floor (((PWM_valve_charac k : α) - (PWM_valve_charac (k - 1) : α))
          / (R_valve_charac k - R_valve_charac (k - 1))
          * (R - R_valve_charac (k - 1)))).toNat := by
  intro n
  induction n with
  | zero => intro zz k h1 h2 _ _; omega
  | succ n ih =>
    intro zz k h1 h2 hmatch hbefore
    rw [linear_searchAux]
    rcases eq_or_lt_of_le h1 with rfl | hlt
    · rw [if_pos hmatch]
    · rw [if_neg (hbefore zz le_rfl hlt)]
      exact ih (zz + 1) k hlt (by omega) hmatch
        (fun i hi1 hi2 => hbefore i (by omega) hi2)

/-- Claim C8 (amended): the PWM mapping of src/master_funcs.c follows the
reference of §4.5 on the table's domain: `R = 0` maps directly to `PWM = 0`;
a nonzero `R` with `thrust(k-1) ≤ R < thrust(k)` maps to the truncated linear
interpolation between the `k-1`-st and `k`-th table samples; and `R` equal to
the top sample `T_max = 0.36` maps to the top PWM `1020`.  For `R` strictly
above the top sample the original claim fails: no segment of the scan
matches, and the PWM is left at its prior value. -/
theorem C8_search_PWM_follows_table (R : ℝ) (pwm : ℕ) :
    (R = 0 → searchPWM1 R pwm = 0) ∧
    (∀ k : ℕ, 1 ≤ k → k ≤ 7 → R ≠ 0 → R_valve_charac (k - 1) ≤ R →
      R < R_valve_charac k →
      searchPWM1 R pwm = PWM_valve_charac (k - 1) +
        (Int.floor (((PWM_valve_charac k : ℝ) - (PWM_valve_charac (k - 1) : ℝ))
          / (R_valve_charac k - R_valve_charac (k - 1))
          * (R - R_valve_charac (k - 1)))).toNat) ∧
    (R = 36 / 100 → searchPWM1 R pwm = PWM_valve_charac 7) ∧
    (36 / 100 < R → searchPWM1 R pwm = pwm) := by
  refine ⟨?_, ?_, ?_, ?_⟩
  · intro h
    simp [searchPWM1, h]
  · intro k hk1 hk7 hR0 hlo hhi
    have hsp : searchPWM1 R pwm = linear_searchAux R pwm 1 12 := by
      rw [searchPWM1, if_pos hR0]
      rfl
    rw [hsp]
    interval_cases k
    · -- k = 1
      rcases eq_or_lt_of_le hlo with heq | hlt
      · exfalso
        apply hR0
        rw [← heq]
        norm_num [R_valve_charac]
      · exact linear_searchAux_first_match R pwm 12 1 1 (by norm_num) (by norm_num)
          ⟨hlo, le_of_lt hhi⟩
          (fun i hi1 hi2 => by omega)
    · -- k = 2
      rcases eq_or_lt_of_le hlo with heq | hlt
      · rw [linear_searchAux_first_match R pwm 12 1 1 (by norm_num) (by norm_num)
          ⟨by rw [← heq]; norm_num [R_valve_charac], heq.symm.le⟩
          (fun i hi1 hi2 => by omega)]
        rw [← heq]
        norm_num [R_valve_charac, PWM_valve_charac]
        all_goals decide
      · exact linear_searchAux_first_match R pwm 12 1 2 (by norm_num) (by norm_num)
          ⟨hlo, le_of_lt hhi⟩
          (fun i hi1 hi2 => by
            interval_cases i <;> (rintro ⟨ha, hb⟩; norm_num [R_valve_charac] at hb hlt; linarith))
    · -- k = 3
      rcases eq_or_lt_of_le hlo with heq | hlt
      · rw [linear_searchAux_first_match R pwm 12 1 2 (by norm_num) (by norm_num)
          ⟨by rw [← heq]; norm_num [R_valve_charac], heq.symm.le⟩
          (fun i hi1 hi2 => by
            interval_cases i <;> (rw [← heq]; norm_num [R_valve_charac]))]
        rw [← heq]
        norm_num [R_valve_charac, PWM_valve_charac]
        all_goals decide
      · exact linear_searchAux_first_match R pwm 12 1 3 (by norm_num) (by norm_num)
          ⟨hlo, le_of_lt hhi⟩
          (fun i hi1 hi2 => by
            interval_cases i <;> (rintro ⟨ha, hb⟩; norm_num [R_valve_charac] at hb hlt; linarith))
    · -- k = 4
      rcases eq_or_lt_of_le hlo with heq | hlt
      · rw [linear_searchAux_first_match R pwm 12 1 3 (by norm_num) (by norm_num)
          ⟨by rw [← heq]; norm_num [R_valve_charac], heq.symm.le⟩
          (fun i hi1 hi2 => by
            interval_cases i <;> (rw [← heq]; norm_num [R_valve_charac]))]
        rw [← heq]
        norm_num [R_valve_charac, PWM_valve_charac]
        all_goals decide
      · exact linear_searchAux_first_match R pwm 12 1 4 (by norm_num) (by norm_num)
          ⟨hlo, le_of_lt hhi⟩
          (fun i hi1 hi2 => by
            interval_cases i <;> (rintro ⟨ha, hb⟩; norm_num [R_valve_charac] at hb hlt; linarith))
    · -- k = 5
      rcases eq_or_lt_of_le hlo with heq | hlt
      · rw [linear_searchAux_first_match R pwm 12 1 4 (by norm_num) (by norm_num)
          ⟨by rw [← heq]; norm_num [R_valve_charac], heq.symm.le⟩
          (fun i hi1 hi2 => by
            interval_cases i <;> (rw [← heq]; norm_num [R_valve_charac]))]
        rw [← heq]
        norm_num [R_valve_charac, PWM_valve_charac]
        all_goals decide
      · exact linear_searchAux_first_match R pwm 12 1 5 (by norm_num) (by norm_num)
          ⟨hlo, le_of_lt hhi⟩
          (fun i hi1 hi2 => by
            interval_cases i <;> (rintro ⟨ha, hb⟩; norm_num [R_valve_charac] at hb hlt; linarith))
    · -- k = 6
      rcases eq_or_lt_of_le hlo with heq | hlt
      · rw [linear_searchAux_first_match R pwm 12 1 5 (by norm_num) (by norm_num)
          ⟨by rw [← heq]; norm_num [R_valve_charac], heq.symm.le⟩
          (fun i hi1 hi2 => by
            interval_cases i <;> (rw [← heq]; norm_num [R_valve_charac]))]
        rw [← heq]
        norm_num [R_valve_charac, PWM_valve_charac]
        all_goals decide
      · exact linear_searchAux_first_match R pwm 12 1 6 (by norm_num) (by norm_num)
          ⟨hlo, le_of_lt hhi⟩
          (fun i hi1 hi2 => by
            interval_cases i <;> (rintro ⟨ha, hb⟩; norm_num [R_valve_charac] at hb hlt; linarith))
    · -- k = 7
      rcases eq_or_lt_of_le hlo with heq | hlt
      · rw [linear_searchAux_first_match R pwm 12 1 6 (by norm_num) (by norm_num)
          ⟨by rw [← heq]; norm_num [R_valve_charac], heq.symm.le⟩
          (fun i hi1 hi2 => by
            interval_cases i <;> (rw [← heq]; norm_num [R_valve_charac]))]
        rw [← heq]
        norm_num [R_valve_charac, PWM_valve_charac]
        all_goals decide
      · exact linear_searchAux_first_match R pwm 12 1 7 (by norm_num) (by norm_num)
          ⟨hlo, le_of_lt hhi⟩
          (fun i hi1 hi2 => by
            interval_cases i <;> (rintro ⟨ha, hb⟩; norm_num [R_valve_charac] at hb hlt; linarith))
  · intro h
    have hR0 : R ≠ 0 := by rw [h]; norm_num
    have hsp : searchPWM1 R pwm = linear_searchAux R pwm 1 12 := by
      rw [searchPWM1, if_pos hR0]
      rfl
    rw [hsp, linear_searchAux_first_match R pwm 12 1 7 (by norm_num) (by norm_num)
      ⟨by rw [h]; norm_num [R_valve_charac], by rw [h]; norm_num [R_valve_charac]⟩
      (fun i hi1 hi2 => by
        interval_cases i <;> (rw [h]; norm_num [R_valve_charac]))]
    rw [h]
    norm_num [R_valve_charac, PWM_valve_charac]
    all_goals decide
  · intro h
    have hR0 : R ≠ 0 := by intro h0; rw [h0] at h; norm_num at h
    rw [searchPWM1, if_pos hR0]
    exact linear_search_above_top R pwm h

/-- Witness for the amended C8 theorem at the concrete thrust `R = 1/10`
inside the first table segment, and at `R = 0`. -/
theorem C8_search_PWM_follows_table_witness :
    ((1 / 10 : ℝ) ≠ 0 ∧ R_valve_charac (1 - 1) ≤ (1 / 10 : ℝ) ∧
      (1 / 10 : ℝ) < R_valve_charac 1) ∧
    searchPWM1 (1 / 10 : ℝ) 5 = PWM_valve_charac (1 - 1) +
      (Int.floor (((PWM_valve_charac 1 : ℝ) - (PWM_valve_charac (1 - 1) : ℝ))
        / (R_valve_charac 1 - R_valve_charac (1 - 1))
        * ((1 / 10 : ℝ) - R_valve_charac (1 - 1)))).toNat :=
  ⟨⟨by norm_num, by norm_num [R_valve_charac], by norm_num [R_valve_charac]⟩,
    (C8_search_PWM_follows_table (1 / 10 : ℝ) 5).2.1 1 le_rfl (by norm_num)
      (by norm_num) (by norm_num [R_valve_charac]) (by norm_num [R_valve_charac])⟩

/-- Counterexample to C8 as stated: a requested thrust strictly above
`T_max = thrust(K-1)` is not mapped to `pwm(K-1) = 1020`; the search leaves
the prior PWM (here 0) untouched. -/
theorem C8_above_Tmax_counterexample :
    R_valve_charac 7 ≤ (1 / 2 : ℝ) ∧ searchPWM1 (1 / 2 : ℝ) 0 ≠ PWM_valve_charac 7 := by
  constructor
  · norm_num [R_valve_charac]
  · rw [searchPWM1, if_pos (by norm_num), linear_search_above_top (1 / 2 : ℝ) 0 (by norm_num)]
    norm_num [PWM_valve_charac]

end ValveCurve

section ControlLaw

/-- The control-loop coefficient structure from control_header.h:25-30. -/
structure Control_loop (α : Type) where
  K : α
  Td : α
  satur : α
  control_range : α

variable {α : Type} [LinearOrderedField α]

/-- The coefficients set by `Fpitch_loop_control_setup`,
src/control_funcs.c:22-27. -/
def Fpitch_loop : Control_loop α :=
  { satur := 0, control_range := 0, K := 5, Td := 3 }

/-- The coefficients set by `Fyaw_loop_control_setup`,
src/control_funcs.c:33-38. -/
def Fyaw_loop : Control_loop α :=
  { satur := 0, control_range := 0, K := 5, Td := 3 }

/-- `VALVE__MAX_THRUST` from src/control_funcs.c:16. -/
def VALVE__MAX_THRUST : α := 36 / 100

/-- The nozzle offset `d` from the roll axis, src/master.c:61. -/
def d : α := 5 / 1000

/-- The coefficients set by `Mroll_loop_control_setup`,
src/control_funcs.c:44-49.  `pi` is the value of the `math.h` constant
`M_PI` (the flight program uses `Real.pi`); `K` is computed as
`satur / control_range` exactly as in the C code. -/
def Mroll_loop (pi : α) : Control_loop α :=
  { satur := 2 * d * VALVE__MAX_THRUST
    control_range := 100 * pi / 180
    K := 2 * d * VALVE__MAX_THRUST / (100 * pi / 180)
    Td := 0 }

/-- Reference yaw angle, src/master.c:94. -/
def psi_ref : α := 0

/-- Reference pitch angle, src/master.c:95. -/
def theta_ref : α := 0

/-- Reference roll rate, src/master.c:96. -/
def wx_ref : α := 0

/-- The pitch force PD law, src/master.c:480. -/
def Fpitch (theta_cont thetadot_cont : α) : α :=
  (Fpitch_loop : Control_loop α).K * (theta_cont - theta_ref)
    + (Fpitch_loop : Control_loop α).Td * thetadot_cont

/-- The yaw force PD law, src/master.c:482. -/
def Fyaw (psi_cont psidot_cont : α) : α :=
  (Fyaw_loop : Control_loop α).K * (psi_cont - psi_ref)
    + (Fyaw_loop : Control_loop α).Td * psidot_cont

/-- The roll moment P law, src/master.c:484. -/
def Mroll (pi wx_cont : α) : α :=
  (Mroll_loop pi).K * (wx_cont - wx_ref)

/-- Claim C5 (amended): the control outputs are computed without any
pre-allocator clipping — the pitch (and yaw) PD output takes arbitrarily
large values, refuting the claimed bound `|F| ≤ T_max` — while the roll
moment satisfies `|M_φ| ≤ 2·d·T_max` exactly when the roll-rate error
stays within the loop's design range of 100°/s (the gain is
`satur / control_range`, so the bound holds inside the range and fails
outside it). -/
theorem C5_control_outputs_unclipped (wx : ℝ) :
    (∀ B : ℝ, ∃ theta : ℝ, B < Fpitch theta 0) ∧
    (∀ B : ℝ, ∃ psi : ℝ, B < Fyaw psi 0) ∧
    (|Mroll Real.pi wx| ≤ 2 * d * VALVE__MAX_THRUST ↔
      |wx - wx_ref| ≤ (Mroll_loop Real.pi).control_range) := by
  refine ⟨?_, ?_, ?_⟩
  · intro B
    refine ⟨B / 5 + 1, ?_⟩
    rw [Fpitch]
    simp only [Fpitch_loop, theta_ref]
    nlinarith
  · intro B
    refine ⟨B / 5 + 1, ?_⟩
    rw [Fyaw]
    simp only [Fyaw_loop, psi_ref]
    nlinarith
  · have hr : (0 : ℝ) < 100 * Real.pi / 180 := by positivity
    have hK : (0 : ℝ) <
        2 * d * VALVE__MAX_THRUST / (100 * Real.pi / 180) := by
      simp only [d, VALVE__MAX_THRUST]
      positivity
    rw [Mroll]
    simp only [Mroll_loop]
    rw [abs_mul, abs_of_nonneg hK.le]
    have hKr : 2 * d * VALVE__MAX_THRUST / (100 * Real.pi / 180) *
        (100 * Real.pi / 180) = 2 * d * VALVE__MAX_THRUST := by
      field_simp
    constructor
    · intro h
      by_contra hc
      push_neg at hc
      have h2 := mul_lt_mul_of_pos_left hc hK
      rw [hKr] at h2
      linarith
    · intro h
      have h2 := mul_le_mul_of_nonneg_left h hK.le
      rw [hKr] at h2
      linarith

/-- Counterexample to C5 as stated: at the snapshot of spec scenario 2
(pitch error 0.3491 rad, zero rates) the PD law yields
`F_θ = 5·0.3491 = 1.7455`, which exceeds `T_max = 0.36` — the code applies
no pre-allocator bound. -/
theorem C5_Fpitch_exceeds_Tmax :
    ¬(|Fpitch (3491 / 10000 : ℝ) 0| ≤ VALVE__MAX_THRUST) := by
  have hval : Fpitch (3491 / 10000 : ℝ) 0 = 17455 / 10000 := by
    rw [Fpitch]
    simp only [Fpitch_loop, theta_ref]
    norm_num
  rw [hval, abs_of_nonneg (by norm_num)]
  norm_num [VALVE__MAX_THRUST]

end ControlLaw

section Kalman

/-- A 2×2 matrix given by its four entries (row major).  The flight code's
`struct MATRIX` (la_header.h:19-23) is a dynamically sized float matrix; the
Kalman filter only ever uses 2×2, 2×1, 1×2 and 1×1 shapes, which are
represented here with fixed fields. -/
structure Mat2 (α : Type) where
  a : α
  b : α
  c : α
  d : α

/-- A 2-vector (a 2×1 `struct MATRIX`). -/
structure Vec2 (α : Type) where
  x0 : α
  x1 : α

variable {α : Type} [LinearOrderedField α]

/-- Modelled from the spec: `mmultiply` of la_funcs.c (declared in
src/la_header.h:27 but implemented in a file absent from src/) is the
standard matrix product, here for the 2×2 case, as fixed by the update
equations of spec §4.2.1. -/
def mmultiply (A B : Mat2 α) : Mat2 α :=
  ⟨A.a * B.a + A.b * B.c, A.a * B.b + A.b * B.d,
   A.c * B.a + A.d * B.c, A.c * B.b + A.d * B.d⟩

/-- Modelled from the spec: `madd` of la_funcs.c (la_header.h:30), entrywise
addition. -/
def madd (A B : Mat2 α) : Mat2 α :=
  ⟨A.a + B.a, A.b + B.b, A.c + B.c, A.d + B.d⟩

/-- Modelled from the spec: `msubtract` of la_funcs.c (la_header.h:31),
entrywise subtraction. -/
def msubtract (A B : Mat2 α) : Mat2 α :=
  ⟨A.a - B.a, A.b - B.b, A.c - B.c, A.d - B.d⟩

/-- Modelled from the spec: `transpose` of la_funcs.c (la_header.h:29). -/
def transpose (A : Mat2 α) : Mat2 α :=
  ⟨A.a, A.c, A.b, A.d⟩

/-- The 2×2 identity `EYE2` initialised in src/master.c:340-342. -/
def EYE2 : Mat2 α := ⟨1, 0, 0, 1⟩

/-- `Kalman_filter` from src/imu_funcs.c:363-379.  `A_kalman` is the
transition matrix `[[1, dt], [0, 1]]` (constant part set in
src/master.c:352-354, the `dt` entry refreshed at line 365 of imu_funcs.c),
`C_kalman = [1, 0]` (src/master.c:356), and `minverse_1x1` is scalar
inversion, so `C·P·Cᵀ + R` is the scalar `P.a + R` and `K = P·Cᵀ/S` is the
first column of `P` divided by `S`.  Returns the updated state and
covariance. -/
def Kalman_filter (x : Vec2 α) (P : Mat2 α) (z : α) (Q : Mat2 α) (R : α)
    (dt : α) : Vec2 α × Mat2 α :=
  let A : Mat2 α := ⟨1, dt, 0, 1⟩
  let x1 : Vec2 α := ⟨A.a * x.x0 + A.b * x.x1, A.c * x.x0 + A.d * x.x1⟩
  let P1 : Mat2 α := madd (mmultiply A (mmultiply P (transpose A))) Q
  let inn : α := z - x1.x0
  let S : α := P1.a + R
  let K : Vec2 α := ⟨P1.a / S, P1.c / S⟩
  let x2 : Vec2 α := ⟨x1.x0 + K.x0 * inn, x1.x1 + K.x1 * inn⟩
  let KC : Mat2 α := ⟨K.x0, 0, K.x1, 0⟩
  let P2 : Mat2 α := mmultiply (msubtract EYE2 KC) P1
  (x2, P2)

/-- Positive semidefiniteness of a 2×2 matrix as nonnegativity of its
quadratic form. -/
def Mat2.PosSemidef (M : Mat2 α) : Prop :=
  ∀ u v : α, 0 ≤ M.a * u * u + M.b * u * v + M.c * v * u + M.d * v * v

/-- For a symmetric 2×2 matrix, positive semidefiniteness is equivalent to
nonnegative diagonal entries and nonnegative determinant. -/
theorem Mat2.posSemidef_iff (M : Mat2 α) (hs : M.b = M.c) :
    M.PosSemidef ↔ 0 ≤ M.a ∧ 0 ≤ M.d ∧ M.b * M.b ≤ M.a * M.d := by
  constructor
  · intro h
    have ha : 0 ≤ M.a := by linarith [h 1 0]
    have hd : 0 ≤ M.d := by linarith [h 0 1]
    refine ⟨ha, hd, ?_⟩
    rcases eq_or_lt_of_le ha with heq | hlt
    · have hb : M.b = 0 := by
        by_contra hb
        have h2 := h (-(M.d + 1) / (2 * M.b)) 1
        rw [← hs, ← heq] at h2
        have hval : (0:α) * (-(M.d + 1) / (2 * M.b)) * (-(M.d + 1) / (2 * M.b))
            + M.b * (-(M.d + 1) / (2 * M.b)) * 1
            + M.b * 1 * (-(M.d + 1) / (2 * M.b)) + M.d * 1 * 1 = -1 := by
          field_simp
          ring
        rw [hval] at h2
        linarith
      rw [hb, ← heq]
      norm_num
    · have h6 := h M.b (-M.a)
      rw [← hs] at h6
      nlinarith [h6]
  · rintro ⟨ha, hd, hdet⟩ u v
    rw [← hs]
    rcases eq_or_lt_of_le ha with heq | hlt
    · have hb : M.b = 0 := by
        have h2 : M.b * M.b ≤ 0 := by rw [← heq] at hdet; linarith
        have h3 : M.b * M.b = 0 := le_antisymm h2 (mul_self_nonneg M.b)
        exact mul_self_eq_zero.mp h3
      rw [hb, ← heq]
      nlinarith [sq_nonneg v]
    · nlinarith [sq_nonneg (M.a * u + M.b * v),
        mul_nonneg (sub_nonneg.mpr hdet) (sq_nonneg v), hlt]

/-- Cross-term bound used for determinant superadditivity of positive
semidefinite 2×2 matrices. -/
theorem two_mul_le_add (xa xb xd qa qb qd : α)
    (hxa : 0 ≤ xa) (hxd : 0 ≤ xd) (hqa : 0 ≤ qa) (hqd : 0 ≤ qd)
    (hx : xb * xb ≤ xa * xd) (hq : qb * qb ≤ qa * qd) :
    2 * (xb * qb) ≤ xa * qd + xd * qa := by
  have h1 : (xb * qb) * (xb * qb) ≤ (xa * qd) * (xd * qa) := by
    have h2 : (xb * xb) * (qb * qb) ≤ (xa * xd) * (qa * qd) :=
      mul_le_mul hx hq (mul_self_nonneg qb) (mul_nonneg hxa hxd)
    nlinarith [h2]
  have hs : 0 ≤ xa * qd + xd * qa :=
    add_nonneg (mul_nonneg hxa hqd) (mul_nonneg hxd hqa)
  rcases le_or_lt (xb * qb) 0 with ht | ht
  · linarith
  · nlinarith [sq_nonneg (xa * qd - xd * qa), h1, hs, ht]

/-- The predicted covariance `A·P·Aᵀ + Q` appearing in `Kalman_filter`
(src/imu_funcs.c:369); named so that the structure of the update can be
reasoned about.  Definitionally equal to the corresponding subterm of
`Kalman_filter`. -/
def predictP (P Q : Mat2 α) (dt : α) : Mat2 α :=
  madd (mmultiply ⟨1, dt, 0, 1⟩ (mmultiply P (transpose ⟨1, dt, 0, 1⟩))) Q

/-- The measurement update `(I - K·C)·P` of `Kalman_filter`
(src/imu_funcs.c:374-378) applied to a predicted covariance `P1`. -/
def updateP (P1 : Mat2 α) (R : α) : Mat2 α :=
  mmultiply (msubtract EYE2 ⟨P1.a / (P1.a + R), 0, P1.c / (P1.a + R), 0⟩) P1

theorem Kalman_filter_P (x : Vec2 α) (P : Mat2 α) (z : α) (Q : Mat2 α)
    (R dt : α) :
    (Kalman_filter x P z Q R dt).2 = updateP (predictP P Q dt) R := rfl

/-- The prediction step preserves symmetry and positive semidefiniteness. -/
theorem predictP_psd (P Q : Mat2 α) (dt : α)
    (hPs : P.b = P.c) (hP : P.PosSemidef) (hQs : Q.b = Q.c) (hQ : Q.PosSemidef) :
    (predictP P Q dt).b = (predictP P Q dt).c ∧ (predictP P Q dt).PosSemidef := by
  obtain ⟨hPa, hPd, hPdet⟩ := (Mat2.posSemidef_iff P hPs).mp hP
  obtain ⟨hQa, hQd, hQdet⟩ := (Mat2.posSemidef_iff Q hQs).mp hQ
  have hsymm : (predictP P Q dt).b = (predictP P Q dt).c := by
    simp only [predictP, madd, mmultiply, transpose]
    rw [hPs, hQs]
    ring
  refine ⟨hsymm, (Mat2.posSemidef_iff _ hsymm).mpr ⟨?_, ?_, ?_⟩⟩
  · simp only [predictP, madd, mmultiply, transpose]
    nlinarith [hP 1 dt, hQa]
  · simp only [predictP, madd, mmultiply, transpose]
    nlinarith [hPd, hQd]
  · have hu : 0 ≤ P.a + 2 * dt * P.b + dt * dt * P.d := by
      have h7 := hP 1 dt
      rw [← hPs] at h7
      nlinarith [h7]
    have hw : (P.b + dt * P.d) * (P.b + dt * P.d)
        ≤ (P.a + 2 * dt * P.b + dt * dt * P.d) * P.d := by
      nlinarith [hPdet]
    have hcross := two_mul_le_add (P.a + 2 * dt * P.b + dt * dt * P.d)
      (P.b + dt * P.d) P.d Q.a Q.b Q.d hu hPd hQa hQd hw hQdet
    simp only [predictP, madd, mmultiply, transpose]
    rw [← hPs]
    nlinarith [hw, hcross, hQdet]

/-- The measurement update preserves symmetry and positive semidefiniteness
whenever the measurement noise `R` is positive. -/
theorem updateP_psd (P1 : Mat2 α) (R : α)
    (hs : P1.b = P1.c) (hpsd : P1.PosSemidef) (hR : 0 < R) :
    (updateP P1 R).b = (updateP P1 R).c ∧ (updateP P1 R).PosSemidef := by
  obtain ⟨ha1, hd1, hdet1⟩ := (Mat2.posSemidef_iff P1 hs).mp hpsd
  have hS : 0 < P1.a + R := by linarith
  have hSne : P1.a + R ≠ 0 := ne_of_gt hS
  have hsymm : (updateP P1 R).b = (updateP P1 R).c := by
    simp only [updateP, mmultiply, msubtract, EYE2]
    rw [hs]
    field_simp
    ring
  refine ⟨hsymm, (Mat2.posSemidef_iff _ hsymm).mpr ⟨?_, ?_, ?_⟩⟩
  · simp only [updateP, mmultiply, msubtract, EYE2]
    have hval : (1 - P1.a / (P1.a + R)) * P1.a + (0 - 0) * P1.c
        = P1.a * R / (P1.a + R) := by
      field_simp
      ring
    rw [hval]
    positivity
  · simp only [updateP, mmultiply, msubtract, EYE2]
    have hval : (0 - P1.c / (P1.a + R)) * P1.b + (1 - 0) * P1.d
        = P1.d - P1.b * P1.c / (P1.a + R) := by
      ring
    rw [hval, sub_nonneg, div_le_iff₀ hS, ← hs]
    nlinarith [hdet1, mul_nonneg hd1 hR.le]
  · simp only [updateP, mmultiply, msubtract, EYE2]
    rw [← hs]
    have hkey : ((1 - P1.a / (P1.a + R)) * P1.a + (0 - 0) * P1.b)
          * ((0 - P1.b / (P1.a + R)) * P1.b + (1 - 0) * P1.d)
        - ((1 - P1.a / (P1.a + R)) * P1.b + (0 - 0) * P1.d)
          * ((1 - P1.a / (P1.a + R)) * P1.b + (0 - 0) * P1.d)
        = R / (P1.a + R) * (P1.a * P1.d - P1.b * P1.b) := by
      field_simp
      ring
    have hpos : 0 ≤ R / (P1.a + R) * (P1.a * P1.d - P1.b * P1.b) := by
      apply mul_nonneg
      · positivity
      · linarith
    nlinarith [hkey, hpos]

/-- Claim C9: every call to `Kalman_filter` preserves the covariance
invariant — for symmetric positive-semidefinite `P`, positive-semidefinite
symmetric process noise `Q`, positive measurement noise `R`, and arbitrary
measurement `z` and timestep `dt`, the posterior covariance is again
symmetric positive semidefinite, in particular with nonnegative diagonal. -/
theorem C9_Kalman_filter_covariance_psd (x : Vec2 ℝ) (P Q : Mat2 ℝ)
    (z R dt : ℝ) (hPs : P.b = P.c) (hP : P.PosSemidef)
    (hQs : Q.b = Q.c) (hQ : Q.PosSemidef) (hR : 0 < R) :
    ((Kalman_filter x P z Q R dt).2.b = (Kalman_filter x P z Q R dt).2.c) ∧
    (Kalman_filter x P z Q R dt).2.PosSemidef ∧
    0 ≤ (Kalman_filter x P z Q R dt).2.a ∧
    0 ≤ (Kalman_filter x P z Q R dt).2.d := by
  rw [Kalman_filter_P]
  obtain ⟨h1s, h1psd⟩ := predictP_psd P Q dt hPs hP hQs hQ
  obtain ⟨h2s, h2psd⟩ := updateP_psd (predictP P Q dt) R h1s h1psd hR
  obtain ⟨h2a, h2d, _⟩ := (Mat2.posSemidef_iff _ h2s).mp h2psd
  exact ⟨h2s, h2psd, h2a, h2d⟩

/-- Witness for C9 at the concrete filter-setup values of src/master.c:
`P = I`, `Q = diag(0.01, 100)`, `R = 10`, `z = 1`, `dt = 1/50`. -/
theorem C9_Kalman_filter_covariance_psd_witness :
    ((⟨1, 0, 0, 1⟩ : Mat2 ℝ).b = (⟨1, 0, 0, 1⟩ : Mat2 ℝ).c) ∧
    ((⟨1, 0, 0, 1⟩ : Mat2 ℝ) : Mat2 ℝ).PosSemidef ∧
    (Kalman_filter (⟨0, 0⟩ : Vec2 ℝ) ⟨1, 0, 0, 1⟩ 1 ⟨1 / 100, 0, 0, 100⟩
      10 (1 / 50)).2.PosSemidef := by
  have hI : ((⟨1, 0, 0, 1⟩ : Mat2 ℝ) : Mat2 ℝ).PosSemidef := by
    intro u v
    simp only
    nlinarith [sq_nonneg u, sq_nonneg v]
  have hQ : ((⟨1 / 100, 0, 0, 100⟩ : Mat2 ℝ) : Mat2 ℝ).PosSemidef := by
    intro u v
    simp only
    nlinarith [sq_nonneg u, sq_nonneg v]
  exact ⟨rfl, hI,
    (C9_Kalman_filter_covariance_psd ⟨0, 0⟩ ⟨1, 0, 0, 1⟩ ⟨1 / 100, 0, 0, 100⟩
      1 10 (1 / 50) rfl hI rfl hQ (by norm_num)).2.1⟩

end Kalman

section MSP430

/-- State of the MSP430 actuator controller
(src/msp430/FlyARocket_GNC_MSP430_slave.c): the four PWM output variables,
the UART reception machinery of `USCI0RX_ISR`, the timeout counter
incremented by the `Timer0_A1` overflow interrupt, and a flag recording
that the main `while(1)` loop has been left via the `"@e!"` handshake. -/
structure SlaveState where
  R1_PWM : ℕ
  R2_PWM : ℕ
  R3_PWM : ℕ
  R4_PWM : ℕ
  buffer : ℕ → ℕ
  pwm_ii : ℕ
  pwm_receiving : Bool
  pwm_convert_now : Bool
  pwm_timeout_counter : ℕ
  rx : ℕ → ℕ
  handshake_ii : ℕ
  handshaking : Bool
  halted : Bool

/-- `assign_PWM` from FlyARocket_GNC_MSP430_slave.c:146-160: unpack the five
received bytes into four 10-bit PWM values and clear `pwm_convert_now`. -/
def assign_PWM (s : SlaveState) : SlaveState :=
  { s with
    R1_PWM := (s.buffer 0 <<< 2) ||| ((s.buffer 1 &&& 0b11000000) >>> 6)
    R2_PWM := ((s.buffer 1 &&& 0b00111111) <<< 4) ||| ((s.buffer 2 &&& 0b11110000) >>> 4)
    R3_PWM := ((s.buffer 2 &&& 0b00001111) <<< 6) ||| ((s.buffer 3 &&& 0b11111100) >>> 2)
    R4_PWM := ((s.buffer 3 &&& 0b00000011) <<< 8) ||| s.buffer 4
    pwm_convert_now := false }

/-- The `case 10` (timer overflow) arm of `Timer0_A1`
(FlyARocket_GNC_MSP430_slave.c:253-260): the timeout counter is a 32-bit
`unsigned long int` incremented once per overflow (about every 128 µs, so
1172 overflows are about 150 ms). -/
def slaveTick (s : SlaveState) : SlaveState :=
  { s with pwm_timeout_counter := (s.pwm_timeout_counter + 1) % 4294967296 }

/-- The handshake-recording stage of `USCI0RX_ISR`
(FlyARocket_GNC_MSP430_slave.c:294-309). -/
def uartHandshake (b : ℕ) (s : SlaveState) : SlaveState :=
  if b = 0x40 ∧ s.pwm_receiving = false ∧ s.handshaking = false then
    { s with handshaking := true
             rx := Function.update s.rx s.handshake_ii b
             handshake_ii := s.handshake_ii + 1 }
  else if s.handshaking = true then
    if s.handshake_ii + 1 = 3 then
      { s with rx := Function.update s.rx s.handshake_ii b
               handshake_ii := 0
               handshaking := false }
    else
      { s with rx := Function.update s.rx s.handshake_ii b
               handshake_ii := s.handshake_ii + 1 }
  else s

/-- The PWM-frame-recording stage of `USCI0RX_ISR`
(FlyARocket_GNC_MSP430_slave.c:311-323), which observes the flags already
updated by the handshake stage. -/
def uartFrame (b : ℕ) (s : SlaveState) : SlaveState :=
  if b = 0x23 ∧ s.pwm_receiving = false ∧ s.handshaking = false then
    { s with pwm_receiving := true, pwm_ii := 0 }
  else if s.pwm_receiving = true then
    if 5 ≤ s.pwm_ii + 1 then
      { s with buffer := Function.update s.buffer s.pwm_ii b
               pwm_ii := 0
               pwm_receiving := false
               pwm_convert_now := true }
    else
      { s with buffer := Function.update s.buffer s.pwm_ii b
               pwm_ii := s.pwm_ii + 1 }
  else s

/-- `USCI0RX_ISR` (FlyARocket_GNC_MSP430_slave.c:292-326) on one received
UART byte: the two stages in source order. -/
def slaveUart (b : ℕ) (s : SlaveState) : SlaveState :=
  uartFrame b (uartHandshake b s)

/-- One iteration of the armed main `while(1)` loop
(FlyARocket_GNC_MSP430_slave.c:218-236): zero the PWM variables on timeout,
then convert a freshly received frame (resetting the timeout counter first,
in source order), then leave the loop when the stop handshake `"@e!"` is in
the buffer.  After the `break` (modelled by `halted`) the loop body no
longer runs. -/
def slaveMain (s : SlaveState) : SlaveState :=
  if s.halted = true then s
  else
    let s1 :=
      if 1172 ≤ s.pwm_timeout_counter then
        { s with R1_PWM := 0, R2_PWM := 0, R3_PWM := 0, R4_PWM := 0 }
      else s
    let s2 :=
      if s1.pwm_convert_now = true then
        assign_PWM { s1 with pwm_timeout_counter := 0 }
      else s1
    if s2.rx 0 = 0x40 ∧ s2.rx 1 = 0x65 ∧ s2.rx 2 = 0x21 then
      { s2 with rx := fun _ => 0, halted := true }
    else s2

/-- Events of the slave controller: a timer overflow, a received UART byte,
or one main-loop iteration. -/
inductive SlaveEv where
  | tick : SlaveEv
  | uart : ℕ → SlaveEv
  | main : SlaveEv

/-- Interleaving semantics of the interrupt-driven program. -/
def slaveStep : SlaveEv → SlaveState → SlaveState
  | .tick, s => slaveTick s
  | .uart b, s => slaveUart b s
  | .main, s => slaveMain s

/-- All four PWM output variables are zero. -/
def pwmZero (s : SlaveState) : Prop :=
  s.R1_PWM = 0 ∧ s.R2_PWM = 0 ∧ s.R3_PWM = 0 ∧ s.R4_PWM = 0

/-- The event completes the reception of a PWM frame (the fifth buffer byte
after a `'#'`), which is the only way `pwm_convert_now` can be raised. -/
def completesFrame (s : SlaveState) : SlaveEv → Prop
  | .uart _ => s.pwm_receiving = true ∧ 4 ≤ s.pwm_ii
  | _ => False

theorem uartHandshake_pwm_fields (b : ℕ) (s : SlaveState) :
    (uartHandshake b s).R1_PWM = s.R1_PWM ∧
    (uartHandshake b s).R2_PWM = s.R2_PWM ∧
    (uartHandshake b s).R3_PWM = s.R3_PWM ∧
    (uartHandshake b s).R4_PWM = s.R4_PWM ∧
    (uartHandshake b s).pwm_ii = s.pwm_ii ∧
    (uartHandshake b s).pwm_receiving = s.pwm_receiving ∧
    (uartHandshake b s).pwm_convert_now = s.pwm_convert_now := by
  unfold uartHandshake
  split
  · exact ⟨rfl, rfl, rfl, rfl, rfl, rfl, rfl⟩
  · split
    · split
      · exact ⟨rfl, rfl, rfl, rfl, rfl, rfl, rfl⟩
      · exact ⟨rfl, rfl, rfl, rfl, rfl, rfl, rfl⟩
    · exact ⟨rfl, rfl, rfl, rfl, rfl, rfl, rfl⟩

theorem uartFrame_preserves (b : ℕ) (s : SlaveState)
    (hz : pwmZero s) (hconv : s.pwm_convert_now = false)
    (hnc : ¬(s.pwm_receiving = true ∧ 4 ≤ s.pwm_ii)) :
    pwmZero (uartFrame b s) ∧ (uartFrame b s).pwm_convert_now = false := by
  obtain ⟨h1, h2, h3, h4⟩ := hz
  unfold uartFrame
  split
  · exact ⟨⟨h1, h2, h3, h4⟩, hconv⟩
  · split
    · rename_i hrec
      split
      · rename_i hfive
        exact absurd ⟨hrec, by omega⟩ hnc
      · exact ⟨⟨h1, h2, h3, h4⟩, hconv⟩
    · exact ⟨⟨h1, h2, h3, h4⟩, hconv⟩

/-- Claim C6: the armed controller never holds a nonzero PWM beyond the
150 ms window.  First: whenever the main loop runs with the timeout counter
at or past 1172 timer-overflow ticks (~150 ms) and no freshly received
frame pending, it forces all four PWM output variables to zero.  Second:
once the PWM outputs are zero with no pending frame, every step of the
system that does not complete the reception of a new PWM frame keeps them
zero — the outputs stay zero until a new valid frame arrives. -/
theorem C6_watchdog_zeroes_pwm :
    (∀ s : SlaveState, s.halted = false → 1172 ≤ s.pwm_timeout_counter →
      s.pwm_convert_now = false → pwmZero (slaveStep .main s)) ∧
    (∀ (s : SlaveState) (e : SlaveEv), pwmZero s → s.pwm_convert_now = false →
      ¬completesFrame s e →
      pwmZero (slaveStep e s) ∧ (slaveStep e s).pwm_convert_now = false) := by
  constructor
  · intro s hhalt htime hconv
    show pwmZero (slaveMain s)
    unfold slaveMain
    rw [if_neg (by rw [hhalt]; simp)]
    simp only [if_pos htime, hconv, Bool.false_eq_true, if_false]
    split
    · exact ⟨rfl, rfl, rfl, rfl⟩
    · exact ⟨rfl, rfl, rfl, rfl⟩
  · intro s e hz hconv hnc
    cases e with
    | tick =>
      obtain ⟨h1, h2, h3, h4⟩ := hz
      exact ⟨⟨h1, h2, h3, h4⟩, hconv⟩
    | uart b =>
      show pwmZero (uartFrame b (uartHandshake b s)) ∧ _
      obtain ⟨hp1, hp2, hp3, hp4, hpii, hprec, hpconv⟩ := uartHandshake_pwm_fields b s
      obtain ⟨h1, h2, h3, h4⟩ := hz
      apply uartFrame_preserves
      · exact ⟨by rw [hp1, h1], by rw [hp2, h2], by rw [hp3, h3], by rw [hp4, h4]⟩
      · rw [hpconv, hconv]
      · rw [hprec, hpii]
        exact hnc
    | main =>
      show pwmZero (slaveMain s) ∧ (slaveMain s).pwm_convert_now = false
      obtain ⟨h1, h2, h3, h4⟩ := hz
      unfold slaveMain
      split
      · exact ⟨⟨h1, h2, h3, h4⟩, hconv⟩
      · split
        · simp only [hconv, Bool.false_eq_true, if_false]
          split
          · exact ⟨⟨rfl, rfl, rfl, rfl⟩, rfl⟩
          · exact ⟨⟨rfl, rfl, rfl, rfl⟩, rfl⟩
        · simp only [hconv, Bool.false_eq_true, if_false]
          split
          · exact ⟨⟨h1, h2, h3, h4⟩, rfl⟩
          · exact ⟨⟨h1, h2, h3, h4⟩, hconv⟩

/-- Witness for C6: a concrete nonzero-PWM state at the timeout threshold
with no pending frame is zeroed by the main loop, and a concrete zero state
stays zero across a tick. -/
theorem C6_watchdog_zeroes_pwm_witness :
    pwmZero (slaveStep .main
      ⟨600, 0, 400, 800, fun _ => 0, 0, false, false, 1172,
        fun _ => 0, 0, false, false⟩) ∧
    pwmZero (slaveStep .tick
      ⟨0, 0, 0, 0, fun _ => 0, 0, false, false, 1200,
        fun _ => 0, 0, false, false⟩) :=
  ⟨(C6_watchdog_zeroes_pwm.1
      ⟨600, 0, 400, 800, fun _ => 0, 0, false, false, 1172,
        fun _ => 0, 0, false, false⟩ rfl (by norm_num) rfl),
   (C6_watchdog_zeroes_pwm.2
      ⟨0, 0, 0, 0, fun _ => 0, 0, false, false, 1200,
        fun _ => 0, 0, false, false⟩ .tick ⟨rfl, rfl, rfl, rfl⟩ rfl
      (by simp [completesFrame])).1⟩

end MSP430


section Simplex

variable {α : Type} [LinearOrderedField α]

/-- A simplex tableau with 1-based indices, the `MAT` of simplex_header.h.
Only the block of rows `1..m+2` and columns `1..n+1` is meaningful. -/
def Tab (α : Type) : Type := ℕ → ℕ → α

/-- The absolute pivot tolerance `EPS = 1e-6` of `simplx` and `simp2`
(src/simplex_funcs.c:56 and 215). -/
def EPS : α := 1 / 1000000

/-- `simp1` from src/simplex_funcs.c:187-206: scan the columns listed in
`ll[1..nll]` of row `mm+1` for the maximum coefficient (by absolute value
when `iabf ≠ 0`, as in the C `fabs` branch).  Returns `(kp, bmax)`. -/
def simp1 (a : Tab α) (mm : ℕ) (ll : ℕ → ℕ) (nll : ℕ) (iabf : ℕ) : ℕ × α :=
  let kp := ll 1
  let bmax := a (mm + 1) (kp + 1)
  if nll < 2 then (kp, bmax)
  else
    forRange 2 nll
      (fun k p =>
        let test : α := if iabf = 0 then a (mm + 1) (ll k + 1) - p.2
          else |a (mm + 1) (ll k + 1)| - |p.2|
        if 0 < test then (ll k, a (mm + 1) (ll k + 1)) else p)
      (kp, bmax)

/-- The initial scan of `simp2` (src/simplex_funcs.c:222-225): the first
index `i` in `1..nl2` with `a[i+1][kp+1] < -EPS` (the C scans the raw row
index `i` here, not `l2[i]`). -/
def simp2Scan (a : Tab α) (kp : ℕ) : ℕ → ℕ → Option ℕ
  | _, 0 => none
  | i, cnt + 1 =>
    if a (i + 1) (kp + 1) < -EPS then some i
    else simp2Scan a kp (i + 1) cnt

/-- The degeneracy tie-break of `simp2` (src/simplex_funcs.c:238-245): scan
columns `k = 1..n` for the first where the candidate rows' ratios differ;
with no difference the loop falls through to the same comparison using the
`k = n` ratios.  Returns `(qp, q0)` at the deciding column. -/
def simp2Tie (a : Tab α) (ip ii kp : ℕ) : ℕ → ℕ → α × α
  | k, 0 =>
    (-(a (ip + 1) (k + 1)) / a (ip + 1) (kp + 1),
     -(a (ii + 1) (k + 1)) / a (ii + 1) (kp + 1))
  | k, cnt + 1 =>
    let qp := -(a (ip + 1) (k + 1)) / a (ip + 1) (kp + 1)
    let q0 := -(a (ii + 1) (k + 1)) / a (ii + 1) (kp + 1)
    if q0 ≠ qp then (qp, q0)
    else if cnt = 0 then (qp, q0)
    else simp2Tie a ip ii kp (k + 1) cnt

/-- `simp2` from src/simplex_funcs.c:214-250: locate the pivot row for
column `kp` by the minimum-ratio test over rows with column entry below
`-EPS`, with the degeneracy tie-break.  Returns `ip` (0 when no pivot
exists). -/
def simp2 (a : Tab α) (n : ℕ) (l2 : ℕ → ℕ) (nl2 kp : ℕ) : ℕ :=
  match simp2Scan a kp 1 nl2 with
  | none => 0
  | some i0 =>
    let ip0 := l2 i0
    let q10 : α := -(a (l2 i0 + 1) 1) / a (l2 i0 + 1) (kp + 1)
    (forRange (i0 + 1) nl2
      (fun i p =>
        let ii := l2 i
        if a (ii + 1) (kp + 1) < -EPS then
          let q : α := -(a (ii + 1) 1) / a (ii + 1) (kp + 1)
          if q < p.2 then (ii, q)
          else if q = p.2 then
            let t := simp2Tie a p.1 ii kp 1 n
            if t.2 < t.1 then (ii, p.2) else p
          else p
        else p)
      (ip0, q10)).1

/-- `simp3` from src/simplex_funcs.c:256-273, written pointwise: the C loops
assign each entry of the block `1 ≤ i ≤ i1+1`, `1 ≤ k ≤ k1+1` exactly once.
Non-pivot rows first scale their pivot-column entry by `piv` and then use
that scaled value with the still-unmodified pivot row; the pivot row itself
is rewritten last. -/
def simp3 (a : Tab α) (i1 k1 ip kp : ℕ) : Tab α :=
  let piv := 1 / a (ip + 1) (kp + 1)
  fun i k =>
    if i = ip + 1 then
      if 1 ≤ k ∧ k ≤ k1 + 1 then
        (if k = kp + 1 then piv else -(a i k) * piv)
      else a i k
    else if 1 ≤ i ∧ i ≤ i1 + 1 ∧ 1 ≤ k ∧ k ≤ k1 + 1 then
      (if k = kp + 1 then a i k * piv
       else a i k - a (ip + 1) k * (a i (kp + 1) * piv))
    else a i k

/-- The mutable bookkeeping of `simplx`: tableau, variable labels and the
index lists (`l2` is initialised to the identity and never changed by the C
code). -/
structure SState (α : Type) where
  a : Tab α
  izrov : ℕ → ℕ
  iposv : ℕ → ℕ
  l1 : ℕ → ℕ
  nl1 : ℕ
  l2 : ℕ → ℕ
  l3 : ℕ → ℕ

/-- The search part of the `l1`-removal loop (src/simplex_funcs.c:136-138):
first position of `kp` in `l1[1..nl1]`, or `nl1+1` on fall-through. -/
def l1Find (l1 : ℕ → ℕ) (kp : ℕ) : ℕ → ℕ → ℕ
  | k, 0 => k
  | k, cnt + 1 => if l1 k = kp then k else l1Find l1 kp (k + 1) cnt

/-- Removal of column `kp` from `l1` after an artificial variable of an
equality constraint leaves the basis (src/simplex_funcs.c:136-141):
`nl1` is decremented and entries from the found position are shifted left
(when `kp` is absent the fall-through still decrements `nl1`). -/
def l1Remove (l1 : ℕ → ℕ) (nl1 kp : ℕ) : (ℕ → ℕ) × ℕ :=
  let kf := l1Find l1 kp 1 nl1
  (fun j => if kf ≤ j ∧ j ≤ nl1 - 1 then l1 (j + 1) else l1 j, nl1 - 1)

/-- The aux-row correction after a first-time exchange of an implicit
artificial variable (src/simplex_funcs.c:153-155): `a[m+2][kp+1] += 1`,
then column `kp+1` of rows `1..m+2` is negated. -/
def colFix (a : Tab α) (m kp : ℕ) : Tab α :=
  fun i k =>
    if k = kp + 1 ∧ 1 ≤ i ∧ i ≤ m + 2 then
      (if i = m + 2 then -(a i k + 1) else -(a i k))
    else a i k

/-- The shared phase-one pivot block `e1`-`e20`
(src/simplex_funcs.c:131-158): `simp3` over the full tableau including the
auxiliary row, bookkeeping for an exchanged-out artificial (`l1` removal
plus column fix) or a first-time `m2` slack (`l3` clear plus column fix),
then the exchange of the variable labels at `e20`. -/
def phase1Pivot (m n m1 m2 : ℕ) (s : SState α) (ip kp : ℕ) : SState α :=
  let a1 := simp3 s.a (m + 1) n ip kp
  let swap := fun (t : SState α) =>
    { t with izrov := Function.update t.izrov kp (t.iposv ip)
             iposv := Function.update t.iposv ip (t.izrov kp) }
  if n + m1 + m2 + 1 ≤ s.iposv ip then
    swap { s with a := colFix a1 m kp
                  l1 := (l1Remove s.l1 s.nl1 kp).1
                  nl1 := (l1Remove s.l1 s.nl1 kp).2 }
  else if s.iposv ip < n + m1 + 1 then
    swap { s with a := a1 }
  else
    let kh := s.iposv ip - m1 - n
    if s.l3 kh = 0 then
      swap { s with a := a1 }
    else
      swap { s with a := colFix a1 m kp
                    l3 := Function.update s.l3 kh 0 }

/-- The artificial-variable cleanup scan at phase-one success
(src/simplex_funcs.c:104-112): the first row `ip` in `m12..m` whose basic
variable is still the artificial `ip+n` and whose row holds an `l1` column
of magnitude above `EPS`; such a pivot re-enters the exchange at `e1`. -/
def cleanupScan (a : Tab α) (iposv : ℕ → ℕ) (l1 : ℕ → ℕ) (nl1 : ℕ) (n : ℕ) :
    ℕ → ℕ → Option (ℕ × ℕ)
  | _, 0 => none
  | ip, cnt + 1 =>
    if iposv ip = ip + n then
      let r := simp1 a ip l1 nl1 1
      if EPS < r.2 then some (ip, r.1)
      else cleanupScan a iposv l1 nl1 n (ip + 1) cnt
    else cleanupScan a iposv l1 nl1 n (ip + 1) cnt

/-- The `m2`-row sign flips at the end of phase one
(src/simplex_funcs.c:113-121): rows of `≥` constraints still carrying their
initial basis get columns `1..n+1` negated. -/
def signFlipM2 (a : Tab α) (l3 : ℕ → ℕ) (m1 m2 n : ℕ) : Tab α :=
  fun i k =>
    if 1 ≤ m2 ∧ m1 + 2 ≤ i ∧ i ≤ m1 + m2 + 1 ∧ l3 (i - 1 - m1) = 1 ∧
        1 ≤ k ∧ k ≤ n + 1 then
      -(a i k)
    else a i k

/-- Outcome of phase one: infeasibility detected, or a feasible state that
continues into phase two. -/
inductive P1Result (α : Type) where
  | infeas : SState α → P1Result α
  | feasible : SState α → P1Result α

/-- The phase-one loop `e10`-`e20` of `simplx`
(src/simplex_funcs.c:96-161), with fuel bounding the number of pivots. -/
def phase1 (m n m1 m2 : ℕ) : ℕ → SState α → Option (P1Result α)
  | 0, _ => none
  | fuel + 1, s =>
    let r := simp1 s.a (m + 1) s.l1 s.nl1 0
    if r.2 ≤ EPS ∧ s.a (m + 2) 1 < -EPS then some (.infeas s)
    else if r.2 ≤ EPS ∧ s.a (m + 2) 1 ≤ EPS then
      match cleanupScan s.a s.iposv s.l1 s.nl1 n (m1 + m2 + 1)
          (m - (m1 + m2)) with
      | some ipkp =>
        phase1 m n m1 m2 fuel (phase1Pivot m n m1 m2 s ipkp.1 ipkp.2)
      | none => some (.feasible { s with a := signFlipM2 s.a s.l3 m1 m2 n })
    else
      let ip := simp2 s.a n s.l2 m r.1
      if ip = 0 then some (.infeas s)
      else phase1 m n m1 m2 fuel (phase1Pivot m n m1 m2 s ip r.1)

/-- The phase-two loop `e30` of `simplx` (src/simplex_funcs.c:163-175),
with fuel bounding the number of pivots. -/
def phase2 (m n : ℕ) : ℕ → SState α → Option (ℤ × SState α)
  | 0, _ => none
  | fuel + 1, s =>
    let r := simp1 s.a 0 s.l1 s.nl1 0
    if r.2 ≤ EPS then some (0, s)
    else
      let ip := simp2 s.a n s.l2 m r.1
      if ip = 0 then some (1, s)
      else
        phase2 m n fuel
          { s with a := simp3 s.a m n ip r.1
                   izrov := Function.update s.izrov r.1 (s.iposv ip)
                   iposv := Function.update s.iposv ip (s.izrov r.1) }

/-- The initial bookkeeping of `simplx` (src/simplex_funcs.c:61-84):
`izrov = l1 = id` on `1..n`, `iposv i = n + i` and `l2 = id` on `1..m`,
`l3 = 1` on `1..m2`. -/
def initState (a : Tab α) (m n m2 : ℕ) : SState α :=
  { a := a
    izrov := fun k => if 1 ≤ k ∧ k ≤ n then k else 0
    iposv := fun i => if 1 ≤ i ∧ i ≤ m then n + i else 0
    l1 := fun k => if 1 ≤ k ∧ k ≤ n then k else 0
    nl1 := n
    l2 := fun i => if 1 ≤ i ∧ i ≤ m then i else 0
    l3 := fun i => if 1 ≤ i ∧ i ≤ m2 then 1 else 0 }

/-- The negative-right-hand-side input check of `simplx`
(src/simplex_funcs.c:68-71): whether some `a[i+1][1]` with `1 ≤ i ≤ m` is
negative (the scan order does not affect the outcome). -/
def negRhs (a : Tab α) : ℕ → Bool
  | 0 => false
  | mm + 1 => if a (mm + 2) 1 < 0 then true else negRhs a mm

/-- The auxiliary objective row `a[m+2][k] = -Σ_{i=m1+1..m} a[i+1][k]`
(src/simplex_funcs.c:90-95). -/
def setAux (a : Tab α) (m n m1 : ℕ) : Tab α :=
  fun i k =>
    if i = m + 2 ∧ 1 ≤ k ∧ k ≤ n + 1 then
      -(∑ j ∈ Finset.Icc (m1 + 1) m, a (j + 1) k)
    else a i k

/-- `simplx` from src/simplex_funcs.c:53-176.  `fuel` bounds the number of
pivot exchanges in each phase (the C gotos may in principle cycle): `none`
means the bound was hit, `some (none, s)` models the two bad-input early
returns that print and leave `*icase` unset, and `some (some icase, s)` is
a regular return with status `icase`. -/
def simplx (a : Tab α) (m n m1 m2 m3 : ℕ) (fuel : ℕ) :
    Option (Option ℤ × SState α) :=
  if m ≠ m1 + m2 + m3 then some (none, initState a m n m2)
  else if negRhs a m then some (none, initState a m n m2)
  else
    let s0 := initState a m n m2
    if m2 + m3 = 0 then (phase2 m n fuel s0).map fun r => (some r.1, r.2)
    else
      let s1 := { s0 with a := setAux s0.a m n m1 }
      match phase1 m n m1 m2 fuel s1 with
      | none => none
      | some (.infeas s) => some (some (-1), s)
      | some (.feasible s) =>
        (phase2 m n fuel s).map fun r => (some r.1, r.2)

/-- The first-match scan over `IPOSV` in `get_simplex_solution`
(src/simplex_funcs.c:290-307). -/
def findBasicRow (iposv : ℕ → ℕ) (i : ℕ) : ℕ → ℕ → Option ℕ
  | _, 0 => none
  | j, cnt + 1 => if iposv j = i then some j else findBasicRow iposv i (j + 1) cnt

/-- `get_simplex_solution` from src/simplex_funcs.c:287-326: on an optimal
status every valve thrust receives its basic value (or 0 when the variable
is nonbasic); on any other status the function only prints an error and
leaves `R1..R4` at their previous values. -/
def get_simplex_solution (icase : Option ℤ) (iposv : ℕ → ℕ) (a : Tab α)
    (M N : ℕ) (R : α × α × α × α) : α × α × α × α :=
  if icase = some 0 then
    let pick := fun i (prev : α) =>
      if 1 ≤ i ∧ i ≤ N then
        match findBasicRow iposv i 1 M with
        | some j => a (j + 1) 1
        | none => 0
      else prev
    (pick 1 R.1, pick 2 R.2.1, pick 3 R.2.2.1, pick 4 R.2.2.2)
  else R

end Simplex

section MasterCycle

variable {α : Type} [LinearOrderedField α]

/-- The simplex tableau built each control cycle (src/master.c:489-500),
with the demands `Fp, Fy, Mr` and the roll rotation entries
`c = cos(phi_cont)`, `s = sin(phi_cont)` as inputs.  Each demand row is
sign-flipped when the demand is negative, exactly as the C `if`s do.
Entries outside the written block default to 0: the C global `A` persists
across cycles, but `simplx` with `m = 3, n = 4` reads only rows `1..5`
and columns `1..5`, and row 5 is fully rewritten by the auxiliary-row
setup. -/
def buildTableau (Fp Fy Mr c s : α) : Tab α :=
  fun i k =>
    if i = 1 then
      (if k = 1 then 0 else if k = 2 then -1 else if k = 3 then -1
       else if k = 4 then -1 else if k = 5 then -1 else 0)
    else if i = 2 then
      (if 0 ≤ Fp then
        (if k = 1 then Fp else if k = 2 then c else if k = 3 then -s
         else if k = 4 then -c else if k = 5 then s else 0)
       else
        (if k = 1 then -Fp else if k = 2 then -c else if k = 3 then s
         else if k = 4 then c else if k = 5 then -s else 0))
    else if i = 3 then
      (if 0 ≤ Fy then
        (if k = 1 then Fy else if k = 2 then s else if k = 3 then c
         else if k = 4 then -s else if k = 5 then -c else 0)
       else
        (if k = 1 then -Fy else if k = 2 then -s else if k = 3 then -c
         else if k = 4 then s else if k = 5 then c else 0))
    else if i = 4 then
      (if 0 ≤ Mr then
        (if k = 1 then Mr else if k = 2 then d else if k = 3 then -d
         else if k = 4 then d else if k = 5 then -d else 0)
       else
        (if k = 1 then -Mr else if k = 2 then -d else if k = 3 then d
         else if k = 4 then -d else if k = 5 then d else 0))
    else 0

/-- The allocator-related globals of master.c that persist from one control
cycle to the next: thrusts `R1..R4`, the PWM values, and `which_zero`. -/
structure CycleState (α : Type) where
  R1 : α
  R2 : α
  R3 : α
  R4 : α
  PWM1 : ℕ
  PWM2 : ℕ
  PWM3 : ℕ
  PWM4 : ℕ
  which_zero : ℕ

/-- The post-solver section of a control cycle (src/master.c:503-533):
extract the thrusts from the solver status `icase` and state `sx`,
saturate each above at `VALVE__MAX_THRUST`, map each thrust to a PWM, and
set the `which_zero` tag (`0b00100000 = 32`, `0b01000000 = 64`,
`0b01100000 = 96`, `0b10000000 = 128`) by the PWM dispatch branches.  The
prior `CycleState` supplies the values the C globals keep when they are
not rewritten. -/
def postAlloc [FloorRing α] (icase : Option ℤ) (sx : SState α)
    (st : CycleState α) : CycleState α :=
  let R := get_simplex_solution icase sx.iposv sx.a 3 4
    (st.R1, st.R2, st.R3, st.R4)
  let r1 := if VALVE__MAX_THRUST ≤ R.1 then VALVE__MAX_THRUST else R.1
  let r2 := if VALVE__MAX_THRUST ≤ R.2.1 then VALVE__MAX_THRUST else R.2.1
  let r3 := if VALVE__MAX_THRUST ≤ R.2.2.1 then VALVE__MAX_THRUST
    else R.2.2.1
  let r4 := if VALVE__MAX_THRUST ≤ R.2.2.2 then VALVE__MAX_THRUST
    else R.2.2.2
  let p1 := searchPWM1 r1 st.PWM1
  let p2 := searchPWM1 r2 st.PWM2
  let p3 := searchPWM1 r3 st.PWM3
  let p4 := searchPWM1 r4 st.PWM4
  let wz := if p1 = 0 then 32 else if p2 = 0 then 64
    else if p3 = 0 then 96 else 128
  ⟨r1, r2, r3, r4, p1, p2, p3, p4, wz⟩

/-- One allocator pass of the control loop (src/master.c:489-533): build
the tableau, run the two-phase simplex with `M = 3, N = 4, M1 = M2 = 0,
M3 = 3` (`none` only when the pivot-fuel bound is hit), then the
post-solver extraction, saturation, PWM mapping and `which_zero`
dispatch of `postAlloc`. -/
def allocCycle [FloorRing α] (Fp Fy Mr c s : α) (st : CycleState α)
    (fuel : ℕ) : Option (CycleState α) :=
  match simplx (buildTableau Fp Fy Mr c s) 3 4 0 0 3 fuel with
  | none => none
  | some (icase, sx) => some (postAlloc icase sx st)

end MasterCycle

section EvalHelpers

variable {α : Type} [LinearOrderedField α]

/-- Unrolling of `forRange 2 4`, the `simp1` scan with `nll = 4`. -/
theorem forRange_two_four {σ : Type} (b : ℕ → σ → σ) (s : σ) :
    forRange 2 4 b s = b 4 (b 3 (b 2 s)) := rfl

/-- Unrolling of `forRange 2 3`. -/
theorem forRange_two_three {σ : Type} (b : ℕ → σ → σ) (s : σ) :
    forRange 2 3 b s = b 3 (b 2 s) := rfl

/-- Unrolling of `forRange 2 2`. -/
theorem forRange_two_two {σ : Type} (b : ℕ → σ → σ) (s : σ) :
    forRange 2 2 b s = b 2 s := rfl

/-- Unrolling of `forRange 3 3`. -/
theorem forRange_three_three {σ : Type} (b : ℕ → σ → σ) (s : σ) :
    forRange 3 3 b s = b 3 s := rfl

/-- Unrolling of `forRange 4 3` (empty range). -/
theorem forRange_four_three {σ : Type} (b : ℕ → σ → σ) (s : σ) :
    forRange 4 3 b s = s := rfl

/-- Unrolling of the `simp2` first scan for `nl2 = 3`. -/
theorem simp2Scan_one_three (a : Tab α) (kp : ℕ) :
    simp2Scan a kp 1 3 =
      (if a 2 (kp + 1) < -EPS then some 1
       else if a 3 (kp + 1) < -EPS then some 2
       else if a 4 (kp + 1) < -EPS then some 3 else none) := rfl

/-- Unrolling of the `simp2` tie-break for `n = 4`. -/
theorem simp2Tie_one_four (a : Tab α) (ip ii kp : ℕ) :
    simp2Tie a ip ii kp 1 4 =
      (if -(a (ii + 1) 2) / a (ii + 1) (kp + 1) ≠
          -(a (ip + 1) 2) / a (ip + 1) (kp + 1) then
        (-(a (ip + 1) 2) / a (ip + 1) (kp + 1),
         -(a (ii + 1) 2) / a (ii + 1) (kp + 1))
       else if -(a (ii + 1) 3) / a (ii + 1) (kp + 1) ≠
          -(a (ip + 1) 3) / a (ip + 1) (kp + 1) then
        (-(a (ip + 1) 3) / a (ip + 1) (kp + 1),
         -(a (ii + 1) 3) / a (ii + 1) (kp + 1))
       else if -(a (ii + 1) 4) / a (ii + 1) (kp + 1) ≠
          -(a (ip + 1) 4) / a (ip + 1) (kp + 1) then
        (-(a (ip + 1) 4) / a (ip + 1) (kp + 1),
         -(a (ii + 1) 4) / a (ii + 1) (kp + 1))
       else if -(a (ii + 1) 5) / a (ii + 1) (kp + 1) ≠
          -(a (ip + 1) 5) / a (ip + 1) (kp + 1) then
        (-(a (ip + 1) 5) / a (ip + 1) (kp + 1),
         -(a (ii + 1) 5) / a (ii + 1) (kp + 1))
       else
        (-(a (ip + 1) 5) / a (ip + 1) (kp + 1),
         -(a (ii + 1) 5) / a (ii + 1) (kp + 1))) := rfl

/-- Unrolling of the phase-one cleanup scan for `m = 3, n = 4, m12 = 1`. -/
theorem cleanupScan_one_three (a : Tab α) (iposv l1 : ℕ → ℕ) (nl1 : ℕ) :
    cleanupScan a iposv l1 nl1 4 1 3 =
      (if iposv 1 = 5 then
        (if EPS < (simp1 a 1 l1 nl1 1).2 then some (1, (simp1 a 1 l1 nl1 1).1)
         else if iposv 2 = 6 then
          (if EPS < (simp1 a 2 l1 nl1 1).2 then some (2, (simp1 a 2 l1 nl1 1).1)
           else if iposv 3 = 7 then
            (if EPS < (simp1 a 3 l1 nl1 1).2 then
              some (3, (simp1 a 3 l1 nl1 1).1)
             else none)
           else none)
         else if iposv 3 = 7 then
          (if EPS < (simp1 a 3 l1 nl1 1).2 then some (3, (simp1 a 3 l1 nl1 1).1)
           else none)
         else none)
       else if iposv 2 = 6 then
        (if EPS < (simp1 a 2 l1 nl1 1).2 then some (2, (simp1 a 2 l1 nl1 1).1)
         else if iposv 3 = 7 then
          (if EPS < (simp1 a 3 l1 nl1 1).2 then some (3, (simp1 a 3 l1 nl1 1).1)
           else none)
         else none)
       else if iposv 3 = 7 then
        (if EPS < (simp1 a 3 l1 nl1 1).2 then some (3, (simp1 a 3 l1 nl1 1).1)
         else none)
       else none) := by
  show cleanupScan a iposv l1 nl1 4 1 3 = _
  rfl

/-- Unrolling of `negRhs` for `m = 3`. -/
theorem negRhs_three (a : Tab α) :
    negRhs a 3 =
      (if a 4 1 < 0 then true else if a 3 1 < 0 then true
       else if a 2 1 < 0 then true else false) := rfl

/-- Unrolling of `findBasicRow` over the three constraint rows. -/
theorem findBasicRow_one_three (iposv : ℕ → ℕ) (i : ℕ) :
    findBasicRow iposv i 1 3 =
      (if iposv 1 = i then some 1 else if iposv 2 = i then some 2
       else if iposv 3 = i then some 3 else none) := rfl

/-- The three-term expansion of the auxiliary-row sum. -/
theorem sum_Icc_one_three (g : ℕ → α) :
    ∑ j ∈ Finset.Icc 1 3, g j = g 1 + g 2 + g 3 := by
  rw [show (3 : ℕ) = 2 + 1 from rfl, Finset.sum_Icc_succ_top (by norm_num),
    show (2 : ℕ) = 1 + 1 from rfl, Finset.sum_Icc_succ_top (by norm_num),
    Finset.Icc_self, Finset.sum_singleton]

/-- Unrolling of `l1Find` over four entries. -/
theorem l1Find_one_four (l1 : ℕ → ℕ) (kp : ℕ) :
    l1Find l1 kp 1 4 =
      (if l1 1 = kp then 1 else if l1 2 = kp then 2 else if l1 3 = kp then 3
       else if l1 4 = kp then 4 else 5) := rfl

/-- Unrolling of `l1Find` over three entries. -/
theorem l1Find_one_three (l1 : ℕ → ℕ) (kp : ℕ) :
    l1Find l1 kp 1 3 =
      (if l1 1 = kp then 1 else if l1 2 = kp then 2 else if l1 3 = kp then 3
       else 4) := rfl

/-- Unrolling of `l1Find` over two entries. -/
theorem l1Find_one_two (l1 : ℕ → ℕ) (kp : ℕ) :
    l1Find l1 kp 1 2 = (if l1 1 = kp then 1 else if l1 2 = kp then 2 else 3) := rfl

/-- Unrolling of `l1Find` over one entry. -/
theorem l1Find_one_one (l1 : ℕ → ℕ) (kp : ℕ) :
    l1Find l1 kp 1 1 = (if l1 1 = kp then 1 else 2) := rfl

/-- Pointwise read of `simp3` (stated over a full application so that
partially applied occurrences inside a state stay folded). -/
theorem simp3_read (a : Tab α) (i1 k1 ip kp i k : ℕ) :
    simp3 a i1 k1 ip kp i k =
      (if i = ip + 1 then
        if 1 ≤ k ∧ k ≤ k1 + 1 then
          (if k = kp + 1 then 1 / a (ip + 1) (kp + 1)
           else -(a i k) * (1 / a (ip + 1) (kp + 1)))
        else a i k
      else if 1 ≤ i ∧ i ≤ i1 + 1 ∧ 1 ≤ k ∧ k ≤ k1 + 1 then
        (if k = kp + 1 then a i k * (1 / a (ip + 1) (kp + 1))
         else a i k - a (ip + 1) k * (a i (kp + 1) * (1 / a (ip + 1) (kp + 1))))
      else a i k) := rfl

/-- Pointwise read of `colFix`. -/
theorem colFix_read (a : Tab α) (m kp i k : ℕ) :
    colFix a m kp i k =
      (if k = kp + 1 ∧ 1 ≤ i ∧ i ≤ m + 2 then
        (if i = m + 2 then -(a i k + 1) else -(a i k))
      else a i k) := rfl

/-- Pointwise read of `setAux`. -/
theorem setAux_read (a : Tab α) (m n m1 i k : ℕ) :
    setAux a m n m1 i k =
      (if i = m + 2 ∧ 1 ≤ k ∧ k ≤ n + 1 then
        -(∑ j ∈ Finset.Icc (m1 + 1) m, a (j + 1) k)
      else a i k) := rfl

/-- Pointwise read of `signFlipM2`. -/
theorem signFlipM2_read (a : Tab α) (l3 : ℕ → ℕ) (m1 m2 n i k : ℕ) :
    signFlipM2 a l3 m1 m2 n i k =
      (if 1 ≤ m2 ∧ m1 + 2 ≤ i ∧ i ≤ m1 + m2 + 1 ∧ l3 (i - 1 - m1) = 1 ∧
          1 ≤ k ∧ k ≤ n + 1 then
        -(a i k)
      else a i k) := rfl

/-- Pointwise read of `buildTableau`. -/
theorem buildTableau_read (Fp Fy Mr c s : α) (i k : ℕ) :
    buildTableau Fp Fy Mr c s i k =
      (if i = 1 then
        (if k = 1 then 0 else if k = 2 then -1 else if k = 3 then -1
         else if k = 4 then -1 else if k = 5 then -1 else 0)
      else if i = 2 then
        (if 0 ≤ Fp then
          (if k = 1 then Fp else if k = 2 then c else if k = 3 then -s
           else if k = 4 then -c else if k = 5 then s else 0)
         else
          (if k = 1 then -Fp else if k = 2 then -c else if k = 3 then s
           else if k = 4 then c else if k = 5 then -s else 0))
      else if i = 3 then
        (if 0 ≤ Fy then
          (if k = 1 then Fy else if k = 2 then s else if k = 3 then c
           else if k = 4 then -s else if k = 5 then -c else 0)
         else
          (if k = 1 then -Fy else if k = 2 then -s else if k = 3 then -c
           else if k = 4 then s else if k = 5 then c else 0))
      else if i = 4 then
        (if 0 ≤ Mr then
          (if k = 1 then Mr else if k = 2 then d else if k = 3 then -d
           else if k = 4 then d else if k = 5 then -d else 0)
         else
          (if k = 1 then -Mr else if k = 2 then -d else if k = 3 then d
           else if k = 4 then -d else if k = 5 then d else 0))
      else 0) := rfl

/-- Read of the shifted `l1` list produced by `l1Remove`. -/
theorem l1Remove_fst_read (l1 : ℕ → ℕ) (nl1 kp j : ℕ) :
    (l1Remove l1 nl1 kp).1 j =
      (if l1Find l1 kp 1 nl1 ≤ j ∧ j ≤ nl1 - 1 then l1 (j + 1) else l1 j) := rfl

/-- The length field of `l1Remove`. -/
theorem l1Remove_snd (l1 : ℕ → ℕ) (nl1 kp : ℕ) :
    (l1Remove l1 nl1 kp).2 = nl1 - 1 := rfl

end EvalHelpers

section PellRun

set_option maxHeartbeats 4000000 in
/-- The concrete optimal `simplx` run on the tableau built from demands
`(1, 0, 0)` and the exact rational rotation `cos = 137903/195025`,
`sin = 137904/195025` (a Pythagorean pair): the solver returns
`ICASE = 0` after three phase-one pivots, with the basis recording
`R = (0, 275807/390050, 137903/195025, -1/390050)` — note the negative
fourth component. -/
theorem pellSimplx : ∀ f : ℕ, ∃ sx : SState ℝ,
    simplx (buildTableau (1:ℝ) 0 0 (137903/195025) (137904/195025)) 3 4 0 0 3
        (f+1+1+1+1+1) = some (some 0, sx) ∧
      sx.iposv 1 = 2 ∧ sx.iposv 2 = 3 ∧ sx.iposv 3 = 4 ∧
      sx.a 2 1 = 275807/390050 ∧ sx.a 3 1 = 137903/195025 ∧
      sx.a 4 1 = -(1/390050) := by
  intro f
  have hb : negRhs (buildTableau (1:ℝ) 0 0 (137903/195025) (137904/195025)) 3 = false := by
    rw [negRhs_three]
    norm_num only [buildTableau_read, d, if_true, if_false, and_true, true_and, and_false, false_and, or_true, true_or, or_false, false_or, not_true, not_false_iff, ne_eq, Bool.false_eq_true]
  have hA0 :
      (setAux (buildTableau (1:ℝ) 0 0 (137903/195025) (137904/195025)) 3 4 0) 1 1 = 0 ∧
      (setAux (buildTableau (1:ℝ) 0 0 (137903/195025) (137904/195025)) 3 4 0) 1 2 = -(1) ∧
      (setAux (buildTableau (1:ℝ) 0 0 (137903/195025) (137904/195025)) 3 4 0) 1 3 = -(1) ∧
      (setAux (buildTableau (1:ℝ) 0 0 (137903/195025) (137904/195025)) 3 4 0) 1 4 = -(1) ∧
      (setAux (buildTableau (1:ℝ) 0 0 (137903/195025) (137904/195025)) 3 4 0) 1 5 = -(1) ∧
      (setAux (buildTableau (1:ℝ) 0 0 (137903/195025) (137904/195025)) 3 4 0) 2 1 = 1 ∧
      (setAux (buildTableau (1:ℝ) 0 0 (137903/195025) (137904/195025)) 3 4 0) 2 2 = 137903/195025 ∧
      (setAux (buildTableau (1:ℝ) 0 0 (137903/195025) (137904/195025)) 3 4 0) 2 3 = -(137904/195025) ∧
      (setAux (buildTableau (1:ℝ) 0 0 (137903/195025) (137904/195025)) 3 4 0) 2 4 = -(137903/195025) ∧
      (setAux (buildTableau (1:ℝ) 0 0 (137903/195025) (137904/195025)) 3 4 0) 2 5 = 137904/195025 ∧
      (setAux (buildTableau (1:ℝ) 0 0 (137903/195025) (137904/195025)) 3 4 0) 3 1 = 0 ∧
      (setAux (buildTableau (1:ℝ) 0 0 (137903/195025) (137904/195025)) 3 4 0) 3 2 = 137904/195025 ∧
      (setAux (buildTableau (1:ℝ) 0 0 (137903/195025) (137904/195025)) 3 4 0) 3 3 = 137903/195025 ∧
      (setAux (buildTableau (1:ℝ) 0 0 (137903/195025) (137904/195025)) 3 4 0) 3 4 = -(137904/195025) ∧
      (setAux (buildTableau (1:ℝ) 0 0 (137903/195025) (137904/195025)) 3 4 0) 3 5 = -(137903/195025) ∧
      (setAux (buildTableau (1:ℝ) 0 0 (137903/195025) (137904/195025)) 3 4 0) 4 1 = 0 ∧
      (setAux (buildTableau (1:ℝ) 0 0 (137903/195025) (137904/195025)) 3 4 0) 4 2 = 1/200 ∧
      (setAux (buildTableau (1:ℝ) 0 0 (137903/195025) (137904/195025)) 3 4 0) 4 3 = -(1/200) ∧
      (setAux (buildTableau (1:ℝ) 0 0 (137903/195025) (137904/195025)) 3 4 0) 4 4 = 1/200 ∧
      (setAux (buildTableau (1:ℝ) 0 0 (137903/195025) (137904/195025)) 3 4 0) 4 5 = -(1/200) ∧
      (setAux (buildTableau (1:ℝ) 0 0 (137903/195025) (137904/195025)) 3 4 0) 5 1 = -(1) ∧
      (setAux (buildTableau (1:ℝ) 0 0 (137903/195025) (137904/195025)) 3 4 0) 5 2 = -(2214257/1560200) ∧
      (setAux (buildTableau (1:ℝ) 0 0 (137903/195025) (137904/195025)) 3 4 0) 5 3 = 7809/1560200 ∧
      (setAux (buildTableau (1:ℝ) 0 0 (137903/195025) (137904/195025)) 3 4 0) 5 4 = 439731/312040 ∧
      (setAux (buildTableau (1:ℝ) 0 0 (137903/195025) (137904/195025)) 3 4 0) 5 5 = 7793/1560200 := by
    norm_num only [setAux_read, sum_Icc_one_three, buildTableau_read, d, if_true, if_false, and_true, true_and, and_false, false_and, or_true, true_or, or_false, false_or, not_true, not_false_iff, ne_eq, Bool.false_eq_true]
  obtain ⟨e0_11, e0_12, e0_13, e0_14, e0_15, e0_21, e0_22, e0_23, e0_24, e0_25, e0_31, e0_32, e0_33, e0_34, e0_35, e0_41, e0_42, e0_43, e0_44, e0_45, e0_51, e0_52, e0_53, e0_54, e0_55⟩ := hA0
  have hstep1 : ∀ b : Tab ℝ,
      b 1 1 = 0 →
      b 1 2 = -(1) →
      b 1 3 = -(1) →
      b 1 4 = -(1) →
      b 1 5 = -(1) →
      b 2 1 = 1 →
      b 2 2 = 137903/195025 →
      b 2 3 = -(137904/195025) →
      b 2 4 = -(137903/195025) →
      b 2 5 = 137904/195025 →
      b 3 1 = 0 →
      b 3 2 = 137904/195025 →
      b 3 3 = 137903/195025 →
      b 3 4 = -(137904/195025) →
      b 3 5 = -(137903/195025) →
      b 4 1 = 0 →
      b 4 2 = 1/200 →
      b 4 3 = -(1/200) →
      b 4 4 = 1/200 →
      b 4 5 = -(1/200) →
      b 5 1 = -(1) →
      b 5 2 = -(2214257/1560200) →
      b 5 3 = 7809/1560200 →
      b 5 4 = 439731/312040 →
      b 5 5 = 7793/1560200 →
      (colFix (simp3 b 4 4 2 3) 3 3) 1 1 = 0 ∧
      (colFix (simp3 b 4 4 2 3) 3 3) 1 2 = -(2) ∧
      (colFix (simp3 b 4 4 2 3) 3 3) 1 3 = -(275807/137904) ∧
      (colFix (simp3 b 4 4 2 3) 3 3) 1 4 = -(195025/137904) ∧
      (colFix (simp3 b 4 4 2 3) 3 3) 1 5 = -(1/137904) ∧
      (colFix (simp3 b 4 4 2 3) 3 3) 2 1 = 1 ∧
      (colFix (simp3 b 4 4 2 3) 3 3) 2 2 = 0 ∧
      (colFix (simp3 b 4 4 2 3) 3 3) 2 3 = -(195025/137904) ∧
      (colFix (simp3 b 4 4 2 3) 3 3) 2 4 = -(137903/137904) ∧
      (colFix (simp3 b 4 4 2 3) 3 3) 2 5 = 195025/137904 ∧
      (colFix (simp3 b 4 4 2 3) 3 3) 3 1 = 0 ∧
      (colFix (simp3 b 4 4 2 3) 3 3) 3 2 = 1 ∧
      (colFix (simp3 b 4 4 2 3) 3 3) 3 3 = 137903/137904 ∧
      (colFix (simp3 b 4 4 2 3) 3 3) 3 4 = 195025/137904 ∧
      (colFix (simp3 b 4 4 2 3) 3 3) 3 5 = -(137903/137904) ∧
      (colFix (simp3 b 4 4 2 3) 3 3) 4 1 = 0 ∧
      (colFix (simp3 b 4 4 2 3) 3 3) 4 2 = 1/100 ∧
      (colFix (simp3 b 4 4 2 3) 3 3) 4 3 = -(1/27580800) ∧
      (colFix (simp3 b 4 4 2 3) 3 3) 4 4 = 7801/1103232 ∧
      (colFix (simp3 b 4 4 2 3) 3 3) 4 5 = -(275807/27580800) ∧
      (colFix (simp3 b 4 4 2 3) 3 3) 5 1 = -(1) ∧
      (colFix (simp3 b 4 4 2 3) 3 3) 5 2 = -(1/100) ∧
      (colFix (simp3 b 4 4 2 3) 3 3) 5 3 = 13001667/9193600 ∧
      (colFix (simp3 b 4 4 2 3) 3 3) 5 4 = 365141/367744 ∧
      (colFix (simp3 b 4 4 2 3) 3 3) 5 5 = -(12909731/9193600) := by
    intro b h11 h12 h13 h14 h15 h21 h22 h23 h24 h25 h31 h32 h33 h34 h35 h41 h42 h43 h44 h45 h51 h52 h53 h54 h55
    norm_num only [colFix_read, simp3_read, h11, h12, h13, h14, h15, h21, h22, h23, h24, h25, h31, h32, h33, h34, h35, h41, h42, h43, h44, h45, h51, h52, h53, h54, h55, if_true, if_false, and_true, true_and, and_false, false_and, or_true, true_or, or_false, false_or, not_true, not_false_iff, ne_eq, Bool.false_eq_true]
  obtain ⟨e1_11, e1_12, e1_13, e1_14, e1_15, e1_21, e1_22, e1_23, e1_24, e1_25, e1_31, e1_32, e1_33, e1_34, e1_35, e1_41, e1_42, e1_43, e1_44, e1_45, e1_51, e1_52, e1_53, e1_54, e1_55⟩ :=
    hstep1 (setAux (buildTableau (1:ℝ) 0 0 (137903/195025) (137904/195025)) 3 4 0) e0_11 e0_12 e0_13 e0_14 e0_15 e0_21 e0_22 e0_23 e0_24 e0_25 e0_31 e0_32 e0_33 e0_34 e0_35 e0_41 e0_42 e0_43 e0_44 e0_45 e0_51 e0_52 e0_53 e0_54 e0_55
  have hstep2 : ∀ b : Tab ℝ,
      b 1 1 = 0 →
      b 1 2 = -(2) →
      b 1 3 = -(275807/137904) →
      b 1 4 = -(195025/137904) →
      b 1 5 = -(1/137904) →
      b 2 1 = 1 →
      b 2 2 = 0 →
      b 2 3 = -(195025/137904) →
      b 2 4 = -(137903/137904) →
      b 2 5 = 195025/137904 →
      b 3 1 = 0 →
      b 3 2 = 1 →
      b 3 3 = 137903/137904 →
      b 3 4 = 195025/137904 →
      b 3 5 = -(137903/137904) →
      b 4 1 = 0 →
      b 4 2 = 1/100 →
      b 4 3 = -(1/27580800) →
      b 4 4 = 7801/1103232 →
      b 4 5 = -(275807/27580800) →
      b 5 1 = -(1) →
      b 5 2 = -(1/100) →
      b 5 3 = 13001667/9193600 →
      b 5 4 = 365141/367744 →
      b 5 5 = -(12909731/9193600) →
      (colFix (simp3 b 4 4 1 2) 3 2) 1 1 = -(275807/195025) ∧
      (colFix (simp3 b 4 4 1 2) 3 2) 1 2 = -(2) ∧
      (colFix (simp3 b 4 4 1 2) 3 2) 1 3 = -(275807/195025) ∧
      (colFix (simp3 b 4 4 1 2) 3 2) 1 4 = -(1/195025) ∧
      (colFix (simp3 b 4 4 1 2) 3 2) 1 5 = -(2) ∧
      (colFix (simp3 b 4 4 1 2) 3 2) 2 1 = 137904/195025 ∧
      (colFix (simp3 b 4 4 1 2) 3 2) 2 2 = 0 ∧
      (colFix (simp3 b 4 4 1 2) 3 2) 2 3 = 137904/195025 ∧
      (colFix (simp3 b 4 4 1 2) 3 2) 2 4 = -(137903/195025) ∧
      (colFix (simp3 b 4 4 1 2) 3 2) 2 5 = 1 ∧
      (colFix (simp3 b 4 4 1 2) 3 2) 3 1 = 137903/195025 ∧
      (colFix (simp3 b 4 4 1 2) 3 2) 3 2 = 1 ∧
      (colFix (simp3 b 4 4 1 2) 3 2) 3 3 = 137903/195025 ∧
      (colFix (simp3 b 4 4 1 2) 3 2) 3 4 = 137904/195025 ∧
      (colFix (simp3 b 4 4 1 2) 3 2) 3 5 = 0 ∧
      (colFix (simp3 b 4 4 1 2) 3 2) 4 1 = -(1/39005000) ∧
      (colFix (simp3 b 4 4 1 2) 3 2) 4 2 = 1/100 ∧
      (colFix (simp3 b 4 4 1 2) 3 2) 4 3 = -(1/39005000) ∧
      (colFix (simp3 b 4 4 1 2) 3 2) 4 4 = 275807/39005000 ∧
      (colFix (simp3 b 4 4 1 2) 3 2) 4 5 = -(1/100) ∧
      (colFix (simp3 b 4 4 1 2) 3 2) 5 1 = 1/39005000 ∧
      (colFix (simp3 b 4 4 1 2) 3 2) 5 2 = -(1/100) ∧
      (colFix (simp3 b 4 4 1 2) 3 2) 5 3 = 1/39005000 ∧
      (colFix (simp3 b 4 4 1 2) 3 2) 5 4 = -(275807/39005000) ∧
      (colFix (simp3 b 4 4 1 2) 3 2) 5 5 = 1/100 := by
    intro b h11 h12 h13 h14 h15 h21 h22 h23 h24 h25 h31 h32 h33 h34 h35 h41 h42 h43 h44 h45 h51 h52 h53 h54 h55
    norm_num only [colFix_read, simp3_read, h11, h12, h13, h14, h15, h21, h22, h23, h24, h25, h31, h32, h33, h34, h35, h41, h42, h43, h44, h45, h51, h52, h53, h54, h55, if_true, if_false, and_true, true_and, and_false, false_and, or_true, true_or, or_false, false_or, not_true, not_false_iff, ne_eq, Bool.false_eq_true]
  obtain ⟨e2_11, e2_12, e2_13, e2_14, e2_15, e2_21, e2_22, e2_23, e2_24, e2_25, e2_31, e2_32, e2_33, e2_34, e2_35, e2_41, e2_42, e2_43, e2_44, e2_45, e2_51, e2_52, e2_53, e2_54, e2_55⟩ :=
    hstep2 (colFix (simp3 (setAux (buildTableau (1:ℝ) 0 0 (137903/195025) (137904/195025)) 3 4 0) 4 4 2 3) 3 3) e1_11 e1_12 e1_13 e1_14 e1_15 e1_21 e1_22 e1_23 e1_24 e1_25 e1_31 e1_32 e1_33 e1_34 e1_35 e1_41 e1_42 e1_43 e1_44 e1_45 e1_51 e1_52 e1_53 e1_54 e1_55
  have hstep3 : ∀ b : Tab ℝ,
      b 1 1 = -(275807/195025) →
      b 1 2 = -(2) →
      b 1 3 = -(275807/195025) →
      b 1 4 = -(1/195025) →
      b 1 5 = -(2) →
      b 2 1 = 137904/195025 →
      b 2 2 = 0 →
      b 2 3 = 137904/195025 →
      b 2 4 = -(137903/195025) →
      b 2 5 = 1 →
      b 3 1 = 137903/195025 →
      b 3 2 = 1 →
      b 3 3 = 137903/195025 →
      b 3 4 = 137904/195025 →
      b 3 5 = 0 →
      b 4 1 = -(1/39005000) →
      b 4 2 = 1/100 →
      b 4 3 = -(1/39005000) →
      b 4 4 = 275807/39005000 →
      b 4 5 = -(1/100) →
      b 5 1 = 1/39005000 →
      b 5 2 = -(1/100) →
      b 5 3 = 1/39005000 →
      b 5 4 = -(275807/39005000) →
      b 5 5 = 1/100 →
      (colFix (simp3 b 4 4 3 4) 3 4) 1 1 = -(275806/195025) ∧
      (colFix (simp3 b 4 4 3 4) 3 4) 1 2 = -(4) ∧
      (colFix (simp3 b 4 4 3 4) 3 4) 1 3 = -(275806/195025) ∧
      (colFix (simp3 b 4 4 3 4) 3 4) 1 4 = -(275808/195025) ∧
      (colFix (simp3 b 4 4 3 4) 3 4) 1 5 = -(200) ∧
      (colFix (simp3 b 4 4 3 4) 3 4) 2 1 = 275807/390050 ∧
      (colFix (simp3 b 4 4 3 4) 3 4) 2 2 = 1 ∧
      (colFix (simp3 b 4 4 3 4) 3 4) 2 3 = 275807/390050 ∧
      (colFix (simp3 b 4 4 3 4) 3 4) 2 4 = 1/390050 ∧
      (colFix (simp3 b 4 4 3 4) 3 4) 2 5 = 100 ∧
      (colFix (simp3 b 4 4 3 4) 3 4) 3 1 = 137903/195025 ∧
      (colFix (simp3 b 4 4 3 4) 3 4) 3 2 = 1 ∧
      (colFix (simp3 b 4 4 3 4) 3 4) 3 3 = 137903/195025 ∧
      (colFix (simp3 b 4 4 3 4) 3 4) 3 4 = 137904/195025 ∧
      (colFix (simp3 b 4 4 3 4) 3 4) 3 5 = 0 ∧
      (colFix (simp3 b 4 4 3 4) 3 4) 4 1 = -(1/390050) ∧
      (colFix (simp3 b 4 4 3 4) 3 4) 4 2 = 1 ∧
      (colFix (simp3 b 4 4 3 4) 3 4) 4 3 = -(1/390050) ∧
      (colFix (simp3 b 4 4 3 4) 3 4) 4 4 = 275807/390050 ∧
      (colFix (simp3 b 4 4 3 4) 3 4) 4 5 = 100 ∧
      (colFix (simp3 b 4 4 3 4) 3 4) 5 1 = 0 ∧
      (colFix (simp3 b 4 4 3 4) 3 4) 5 2 = 0 ∧
      (colFix (simp3 b 4 4 3 4) 3 4) 5 3 = 0 ∧
      (colFix (simp3 b 4 4 3 4) 3 4) 5 4 = 0 ∧
      (colFix (simp3 b 4 4 3 4) 3 4) 5 5 = 0 := by
    intro b h11 h12 h13 h14 h15 h21 h22 h23 h24 h25 h31 h32 h33 h34 h35 h41 h42 h43 h44 h45 h51 h52 h53 h54 h55
    norm_num only [colFix_read, simp3_read, h11, h12, h13, h14, h15, h21, h22, h23, h24, h25, h31, h32, h33, h34, h35, h41, h42, h43, h44, h45, h51, h52, h53, h54, h55, if_true, if_false, and_true, true_and, and_false, false_and, or_true, true_or, or_false, false_or, not_true, not_false_iff, ne_eq, Bool.false_eq_true]
  obtain ⟨e3_11, e3_12, e3_13, e3_14, e3_15, e3_21, e3_22, e3_23, e3_24, e3_25, e3_31, e3_32, e3_33, e3_34, e3_35, e3_41, e3_42, e3_43, e3_44, e3_45, e3_51, e3_52, e3_53, e3_54, e3_55⟩ :=
    hstep3 (colFix (simp3 (colFix (simp3 (setAux (buildTableau (1:ℝ) 0 0 (137903/195025) (137904/195025)) 3 4 0) 4 4 2 3) 3 3) 4 4 1 2) 3 2) e2_11 e2_12 e2_13 e2_14 e2_15 e2_21 e2_22 e2_23 e2_24 e2_25 e2_31 e2_32 e2_33 e2_34 e2_35 e2_41 e2_42 e2_43 e2_44 e2_45 e2_51 e2_52 e2_53 e2_54 e2_55
  have hph : ∃ sf : SState ℝ,
      phase1 3 4 0 0 (f+1+1+1+1+1)
        { initState (buildTableau (1:ℝ) 0 0 (137903/195025) (137904/195025)) 3 4 0 with
          a := setAux (initState (buildTableau (1:ℝ) 0 0 (137903/195025) (137904/195025)) 3 4 0).a 3 4 0 } =
        some (P1Result.feasible sf) ∧
      phase2 3 4 (f+1+1+1+1+1) sf = some (0, sf) ∧
      sf.iposv 1 = 2 ∧ sf.iposv 2 = 3 ∧ sf.iposv 3 = 4 ∧
      sf.a 2 1 = 275807/390050 ∧ sf.a 3 1 = 137903/195025 ∧
      sf.a 4 1 = -(1/390050) := by
    rw [phase1]
    norm_num only [phase1Pivot, l1Remove_fst_read, l1Remove_snd, initState, simp1, simp2, forRange_two_four, forRange_two_three, forRange_two_two, forRange_three_three, forRange_four_three, simp2Scan_one_three, simp2Tie_one_four, cleanupScan_one_three, l1Find_one_four, l1Find_one_three, l1Find_one_two, l1Find_one_one, Function.update_same, Function.update_noteq, EPS, d, if_true, if_false, and_true, true_and, and_false, false_and, or_true, true_or, or_false, false_or, not_true, not_false_iff, ne_eq, Bool.false_eq_true, e0_11, e0_12, e0_13, e0_14, e0_15, e0_21, e0_22, e0_23, e0_24, e0_25, e0_31, e0_32, e0_33, e0_34, e0_35, e0_41, e0_42, e0_43, e0_44, e0_45, e0_51, e0_52, e0_53, e0_54, e0_55]
    rw [phase1]
    norm_num only [phase1Pivot, l1Remove_fst_read, l1Remove_snd, initState, simp1, simp2, forRange_two_four, forRange_two_three, forRange_two_two, forRange_three_three, forRange_four_three, simp2Scan_one_three, simp2Tie_one_four, cleanupScan_one_three, l1Find_one_four, l1Find_one_three, l1Find_one_two, l1Find_one_one, Function.update_same, Function.update_noteq, EPS, d, if_true, if_false, and_true, true_and, and_false, false_and, or_true, true_or, or_false, false_or, not_true, not_false_iff, ne_eq, Bool.false_eq_true, e1_11, e1_12, e1_13, e1_14, e1_15, e1_21, e1_22, e1_23, e1_24, e1_25, e1_31, e1_32, e1_33, e1_34, e1_35, e1_41, e1_42, e1_43, e1_44, e1_45, e1_51, e1_52, e1_53, e1_54, e1_55]
    rw [phase1]
    norm_num only [phase1Pivot, l1Remove_fst_read, l1Remove_snd, initState, simp1, simp2, forRange_two_four, forRange_two_three, forRange_two_two, forRange_three_three, forRange_four_three, simp2Scan_one_three, simp2Tie_one_four, cleanupScan_one_three, l1Find_one_four, l1Find_one_three, l1Find_one_two, l1Find_one_one, Function.update_same, Function.update_noteq, EPS, d, if_true, if_false, and_true, true_and, and_false, false_and, or_true, true_or, or_false, false_or, not_true, not_false_iff, ne_eq, Bool.false_eq_true, e2_11, e2_12, e2_13, e2_14, e2_15, e2_21, e2_22, e2_23, e2_24, e2_25, e2_31, e2_32, e2_33, e2_34, e2_35, e2_41, e2_42, e2_43, e2_44, e2_45, e2_51, e2_52, e2_53, e2_54, e2_55]
    rw [phase1]
    norm_num only [phase1Pivot, l1Remove_fst_read, l1Remove_snd, initState, simp1, simp2, forRange_two_four, forRange_two_three, forRange_two_two, forRange_three_three, forRange_four_three, simp2Scan_one_three, simp2Tie_one_four, cleanupScan_one_three, l1Find_one_four, l1Find_one_three, l1Find_one_two, l1Find_one_one, Function.update_same, Function.update_noteq, EPS, d, if_true, if_false, and_true, true_and, and_false, false_and, or_true, true_or, or_false, false_or, not_true, not_false_iff, ne_eq, Bool.false_eq_true, e3_11, e3_12, e3_13, e3_14, e3_15, e3_21, e3_22, e3_23, e3_24, e3_25, e3_31, e3_32, e3_33, e3_34, e3_35, e3_41, e3_42, e3_43, e3_44, e3_45, e3_51, e3_52, e3_53, e3_54, e3_55]
    refine ⟨_, rfl, ?_, ?_, ?_, ?_, ?_, ?_, ?_⟩
    · rw [phase2]
      norm_num only [simp1, forRange_two_four, forRange_two_three, forRange_two_two, forRange_three_three, forRange_four_three, signFlipM2_read, l1Remove_fst_read, l1Remove_snd, l1Find_one_four, l1Find_one_three, l1Find_one_two, l1Find_one_one, initState, Function.update_same, Function.update_noteq, EPS, d, e3_11, e3_12, e3_13, e3_14, e3_15, e3_21, e3_22, e3_23, e3_24, e3_25, e3_31, e3_32, e3_33, e3_34, e3_35, e3_41, e3_42, e3_43, e3_44, e3_45, e3_51, e3_52, e3_53, e3_54, e3_55, if_true, if_false, and_true, true_and, and_false, false_and, or_true, true_or, or_false, false_or, not_true, not_false_iff, ne_eq, Bool.false_eq_true]
    all_goals
      norm_num only [signFlipM2_read, initState, Function.update_same, Function.update_noteq, e3_11, e3_12, e3_13, e3_14, e3_15, e3_21, e3_22, e3_23, e3_24, e3_25, e3_31, e3_32, e3_33, e3_34, e3_35, e3_41, e3_42, e3_43, e3_44, e3_45, e3_51, e3_52, e3_53, e3_54, e3_55, if_true, if_false, and_true, true_and, and_false, false_and, or_true, true_or, or_false, false_or, not_true, not_false_iff, ne_eq, Bool.false_eq_true]
  obtain ⟨sf, h1, h2, hi1, hi2, hi3, ha2, ha3, ha4⟩ := hph
  simp only [simplx]
  rw [h1]
  norm_num only [hb, h2, Option.map_some', Option.some.injEq, if_true, if_false, and_true, true_and, and_false, false_and, or_true, true_or, or_false, false_or, not_true, not_false_iff, ne_eq, Bool.false_eq_true]
  exact ⟨sf, rfl, hi1, hi2, hi3, ha2, ha3, ha4⟩

end PellRun

section AllocatorClaims

variable {α : Type} [LinearOrderedField α]

/-- Zero requested thrust maps directly to PWM 0
(src/master_funcs.c:169-173). -/
theorem searchPWM1_zero [FloorRing α] (pwm : ℕ) :
    searchPWM1 (0 : α) pwm = 0 := by
  rw [searchPWM1, if_neg]
  intro h
  exact h rfl

/-- The saturation step `if (R >= VALVE__MAX_THRUST) R = VALVE__MAX_THRUST`
sends zero to zero and nothing else to zero. -/
theorem saturate_eq_zero_iff (x : α) :
    (if VALVE__MAX_THRUST ≤ x then VALVE__MAX_THRUST else x) = 0 ↔ x = 0 := by
  split
  · rename_i h
    constructor
    · intro h0
      rw [VALVE__MAX_THRUST] at h0
      norm_num at h0
    · intro hx0
      rw [hx0, VALVE__MAX_THRUST] at h
      norm_num at h
  · exact Iff.rfl

/-- The saturation step never exceeds `VALVE__MAX_THRUST` when its input
is below the threshold, and equals it otherwise. -/
theorem saturate_le (x : α) :
    (if VALVE__MAX_THRUST ≤ x then VALVE__MAX_THRUST else x) ≤
      VALVE__MAX_THRUST := by
  split
  · exact le_rfl
  · rename_i h
    exact le_of_not_le h

/-- Pigeonhole over the basis rows: `get_simplex_solution` with an optimal
status writes at most three of the four thrusts from basis rows, so at
least one is set to the nonbasic value 0. -/
theorem extraction_has_zero (iposv : ℕ → ℕ) (a : Tab α) (R : α × α × α × α) :
    (get_simplex_solution (some 0) iposv a 3 4 R).1 = 0 ∨
    (get_simplex_solution (some 0) iposv a 3 4 R).2.1 = 0 ∨
    (get_simplex_solution (some 0) iposv a 3 4 R).2.2.1 = 0 ∨
    (get_simplex_solution (some 0) iposv a 3 4 R).2.2.2 = 0 := by
  have key : ∃ i, 1 ≤ i ∧ i ≤ 4 ∧ iposv 1 ≠ i ∧ iposv 2 ≠ i ∧ iposv 3 ≠ i := by
    by_contra hc
    push_neg at hc
    have h1 := hc 1
    have h2 := hc 2
    have h3 := hc 3
    have h4 := hc 4
    omega
  obtain ⟨i, hi1, hi4, hv1, hv2, hv3⟩ := key
  have hnone : findBasicRow iposv i 1 3 = none := by
    rw [findBasicRow_one_three, if_neg hv1, if_neg hv2, if_neg hv3]
  interval_cases i
  · left
    simp [get_simplex_solution, hnone]
  · right; left
    simp [get_simplex_solution, hnone]
  · right; right; left
    simp [get_simplex_solution, hnone]
  · right; right; right
    simp [get_simplex_solution, hnone]

/-- On a non-optimal status the extraction leaves the thrust variables at
their prior values (src/simplex_funcs.c:308-325 only prints). -/
theorem get_simplex_solution_nonopt (icase : Option ℤ) (iposv : ℕ → ℕ)
    (a : Tab α) (M N : ℕ) (R : α × α × α × α) (h : icase ≠ some 0) :
    get_simplex_solution icase iposv a M N R = R := by
  rw [get_simplex_solution, if_neg h]

end AllocatorClaims

section AllocatorClaimsReal

/-- Core of claim C4 at the level of the post-solver step: some saturated
thrust is zero (from the basis pigeonhole when optimal, and from the prior
state otherwise), the `which_zero` tag names a valve whose PWM command is
zero, and the `0b10000000` fall-through tag certifies the fourth thrust. -/
theorem postAlloc_zero_tag (icase : Option ℤ) (sx : SState ℝ)
    (st : CycleState ℝ)
    (hprior : st.R1 = 0 ∨ st.R2 = 0 ∨ st.R3 = 0 ∨ st.R4 = 0) :
    ((postAlloc icase sx st).R1 = 0 ∨ (postAlloc icase sx st).R2 = 0 ∨
      (postAlloc icase sx st).R3 = 0 ∨ (postAlloc icase sx st).R4 = 0) ∧
    (((postAlloc icase sx st).which_zero = 32 ∧ (postAlloc icase sx st).PWM1 = 0) ∨
     ((postAlloc icase sx st).which_zero = 64 ∧ (postAlloc icase sx st).PWM2 = 0) ∨
     ((postAlloc icase sx st).which_zero = 96 ∧ (postAlloc icase sx st).PWM3 = 0) ∨
     ((postAlloc icase sx st).which_zero = 128 ∧ (postAlloc icase sx st).PWM4 = 0)) ∧
    ((postAlloc icase sx st).which_zero = 128 → (postAlloc icase sx st).R4 = 0) := by
  have hz : (get_simplex_solution icase sx.iposv sx.a 3 4
        (st.R1, st.R2, st.R3, st.R4)).1 = 0 ∨
      (get_simplex_solution icase sx.iposv sx.a 3 4
        (st.R1, st.R2, st.R3, st.R4)).2.1 = 0 ∨
      (get_simplex_solution icase sx.iposv sx.a 3 4
        (st.R1, st.R2, st.R3, st.R4)).2.2.1 = 0 ∨
      (get_simplex_solution icase sx.iposv sx.a 3 4
        (st.R1, st.R2, st.R3, st.R4)).2.2.2 = 0 := by
    by_cases hic : icase = some 0
    · subst hic
      exact extraction_has_zero sx.iposv sx.a _
    · rw [get_simplex_solution_nonopt _ _ _ _ _ _ hic]
      exact hprior
  simp only [postAlloc]
  set E := get_simplex_solution icase sx.iposv sx.a 3 4
    (st.R1, st.R2, st.R3, st.R4) with hE
  set r1 := if VALVE__MAX_THRUST ≤ E.1 then VALVE__MAX_THRUST else E.1 with hr1
  set r2 := if VALVE__MAX_THRUST ≤ E.2.1 then VALVE__MAX_THRUST else E.2.1 with hr2
  set r3 := if VALVE__MAX_THRUST ≤ E.2.2.1 then VALVE__MAX_THRUST else E.2.2.1 with hr3
  set r4 := if VALVE__MAX_THRUST ≤ E.2.2.2 then VALVE__MAX_THRUST else E.2.2.2 with hr4
  have hzr : r1 = 0 ∨ r2 = 0 ∨ r3 = 0 ∨ r4 = 0 := by
    rcases hz with h | h | h | h
    · exact Or.inl ((saturate_eq_zero_iff E.1).mpr h)
    · exact Or.inr (Or.inl ((saturate_eq_zero_iff E.2.1).mpr h))
    · exact Or.inr (Or.inr (Or.inl ((saturate_eq_zero_iff E.2.2.1).mpr h)))
    · exact Or.inr (Or.inr (Or.inr ((saturate_eq_zero_iff E.2.2.2).mpr h)))
  refine ⟨hzr, ?_⟩
  by_cases hp1 : searchPWM1 r1 st.PWM1 = 0
  · simp only [hp1, if_pos rfl]
    exact ⟨Or.inl ⟨rfl, by simp [hp1]⟩, by intro h; norm_num at h⟩
  · rw [if_neg hp1]
    by_cases hp2 : searchPWM1 r2 st.PWM2 = 0
    · simp only [hp2, if_pos rfl]
      exact ⟨Or.inr (Or.inl ⟨rfl, by simp [hp2]⟩), by intro h; norm_num at h⟩
    · rw [if_neg hp2]
      by_cases hp3 : searchPWM1 r3 st.PWM3 = 0
      · simp only [hp3, if_pos rfl]
        exact ⟨Or.inr (Or.inr (Or.inl ⟨rfl, by simp [hp3]⟩)), by intro h; norm_num at h⟩
      · rw [if_neg hp3]
        have hr40 : r4 = 0 := by
          rcases hzr with h | h | h | h
          · exact absurd (by rw [h]; exact searchPWM1_zero st.PWM1) hp1
          · exact absurd (by rw [h]; exact searchPWM1_zero st.PWM2) hp2
          · exact absurd (by rw [h]; exact searchPWM1_zero st.PWM3) hp3
          · exact h
        refine ⟨Or.inr (Or.inr (Or.inr ⟨rfl, ?_⟩)), fun _ => hr40⟩
        rw [hr40]
        exact searchPWM1_zero st.PWM4

end AllocatorClaimsReal

end FlyARocket
